import Mathlib

/-!
Shallow embedding of the embedded_targets_manager sources (TypeScript) and
proofs about the claims of its specification.

Conventions of the embedding:
* JS string-keyed objects and `Map`s become insertion-ordered association
  lists (`Obj α`): assignment to an existing key updates it in place,
  assignment to a fresh key appends, matching JS enumeration order for
  non-integer-like keys.
* Asynchronous collaborators (filesystem, subprocess execution, the
  diagnostics subsystem, clocks) become explicit parameters: a subprocess
  call is an oracle value `Except ExecError ExecResult` (a rejected promise
  is `.error`), `Date.now()` is a `now : Nat` argument.
* The single-threaded event loop is modelled by treating each synchronous
  run-to-completion segment (between awaits) as one atomic state
  transition on explicit state structures.
* All strings involved in the claims are ASCII; character classes of the
  JS regexes (`\s`, `\w`, case folding under the `i` flag) are modelled by
  their ASCII restrictions.
-/

namespace ETM

/-- Run status of a (module, target) pair, `TargetRunStatus` in
`src/state/types.ts`. -/
inductive RunStatus
  | idle
  | running
  | success
  | warning
  | failed
deriving DecidableEq, Repr

/-- Configure status of a module, `ConfigureStatus` in `src/state/types.ts`. -/
inductive ConfigStatus
  | idle
  | running
  | success
  | failed
deriving DecidableEq, Repr

/-- CMake generator, `CMakeGenerator` in `src/cmake/generator.ts`. -/
inductive CMakeGenerator
  | ninja
  | unixMakefiles
deriving DecidableEq, Repr

/-- Build-system preference, `BuildSystem` in `src/cmake/generator.ts`. -/
inductive BuildSystem
  | auto
  | ninja
  | make
deriving DecidableEq, Repr

/-- Insertion-ordered association list modelling a JS object / `Map` with
string keys. -/
abbrev Obj (α : Type) : Type := List (String × α)

/-- Lookup of a key (JS property read / `Map.get`). -/
def Obj.lookup {α : Type} : Obj α → String → Option α
  | [], _ => none
  | (k', v) :: rest, k => if k' = k then some v else Obj.lookup rest k

/-- Assignment (JS property write / `Map.set`): an existing key keeps its
position, a fresh key is appended. -/
def Obj.set {α : Type} : Obj α → String → α → Obj α
  | [], k, v => [(k, v)]
  | (k', v') :: rest, k, v =>
    if k' = k then (k, v) :: rest else (k', v') :: Obj.set rest k v

/-- Deletion (`Map.delete` / property removal). -/
def Obj.erase {α : Type} (o : Obj α) (k : String) : Obj α :=
  o.filter (fun e => e.1 ≠ k)

theorem Obj.lookup_set {α : Type} (o : Obj α) (k k' : String) (v : α) :
    (o.set k v).lookup k' = if k' = k then some v else o.lookup k' := by
  induction o with
  | nil =>
    simp only [Obj.set, Obj.lookup]
    by_cases h : k = k'
    · subst h; simp
    · rw [if_neg h, if_neg (fun hh => h hh.symm)]
  | cons e rest ih =>
    obtain ⟨k₀, v₀⟩ := e
    by_cases h0 : k₀ = k
    · subst h0
      simp only [Obj.set, if_pos rfl, Obj.lookup]
      by_cases h : k₀ = k'
      · subst h; simp
      · rw [if_neg h, if_neg (fun hh => h hh.symm), if_neg h]
    · simp only [Obj.set, if_neg h0, Obj.lookup]
      by_cases h : k₀ = k'
      · subst h
        rw [if_pos rfl, if_neg h0, if_pos rfl]
      · rw [if_neg h, if_neg h, ih]

theorem Obj.lookup_set_isSome {α : Type} (o : Obj α) (k k' : String) (v : α)
    (h : (o.lookup k').isSome) : ((o.set k v).lookup k').isSome := by
  rw [Obj.lookup_set]
  by_cases hk : k' = k <;> simp [hk, h]

theorem Obj.length_set {α : Type} (o : Obj α) (k : String) (v : α) :
    (o.set k v).length = if (o.lookup k).isSome then o.length else o.length + 1 := by
  induction o with
  | nil => simp [Obj.set, Obj.lookup]
  | cons e rest ih =>
    obtain ⟨k₀, v₀⟩ := e
    by_cases h0 : k₀ = k
    · simp [Obj.set, Obj.lookup, h0]
    · simp only [Obj.set, if_neg h0, Obj.lookup, List.length_cons, ih]
      by_cases h : (Obj.lookup rest k).isSome <;> simp [h]

theorem Obj.length_erase_le {α : Type} (o : Obj α) (k : String) :
    (o.erase k).length ≤ o.length :=
  List.length_filter_le _ o

/-! ### ASCII text model shared by the regex-based classifiers -/

/-- ASCII restriction of the JS regex class `\s` (space, tab, newline,
carriage return, vertical tab, form feed). -/
def isSpaceChar (c : Char) : Bool :=
  c = ' ' || c = '\t' || c = '\n' || c = '\r' || c = '\x0b' || c = '\x0c'

/-- ASCII lower-casing, the restriction of JS case-insensitive matching to
ASCII letters. -/
def asciiLower (c : Char) : Char :=
  if 'A' ≤ c ∧ c ≤ 'Z' then Char.ofNat (c.toNat + 32) else c

/-- ASCII restriction of the JS regex word class `\w` (used by `\b`). -/
def isWordChar (c : Char) : Bool :=
  ('a' ≤ c && c ≤ 'z') || ('A' ≤ c && c ≤ 'Z') || ('0' ≤ c && c ≤ '9') || c = '_'

/-- Match a literal character sequence at the start of the input and
return the rest on success. -/
def matchLit : List Char → List Char → Option (List Char)
  | [], s => some s
  | _ :: _, [] => none
  | p :: ps, c :: cs => if c = p then matchLit ps cs else none

/-- Match the regex tail `\s*:`: optional whitespace followed by a colon. -/
def spacesThenColon : List Char → Bool
  | [] => false
  | c :: cs => if c = ':' then true else if isSpaceChar c then spacesThenColon cs else false

/-- Match `\s+` followed by a continuation, with backtracking over the
amount of whitespace consumed. -/
def spacesOneThen (k : List Char → Bool) : List Char → Bool
  | [] => false
  | c :: cs => isSpaceChar c && (k cs || spacesOneThen k cs)

/-- Match the body `warning\s*:` of the warning pattern at the current
position (input already lower-cased). -/
def warningAt (s : List Char) : Bool :=
  match matchLit "warning".data s with
  | some rest => spacesThenColon rest
  | none => false

/-- Match the body `(fatal\s+)?error\s*:` of the error pattern at the
current position (input already lower-cased). -/
def errorAt (s : List Char) : Bool :=
  (match matchLit "error".data s with
   | some rest => spacesThenColon rest
   | none => false) ||
  (match matchLit "fatal".data s with
   | some rest =>
     spacesOneThen
       (fun r =>
         match matchLit "error".data r with
         | some rest2 => spacesThenColon rest2
         | none => false)
       rest
   | none => false)

/-- Scan the whole input for a position where the pattern body matches and
the `(^|\s)` anchor holds: the start of the string, or right after a
whitespace character (which subsumes the `m`-flag line anchors). -/
def scanPat (atP : List Char → Bool) : Bool → List Char → Bool
  | allowed, [] => allowed && atP []
  | allowed, c :: cs => (allowed && atP (c :: cs)) || scanPat atP (isSpaceChar c) cs

/-- Test of the error pattern `/(^|\s)(fatal\s+)?error\s*:/im` from
`TargetRunner.resolveOutputStatus`. -/
def errorPatternTest (output : String) : Bool :=
  scanPat errorAt true (output.data.map asciiLower)

/-- Test of the warning pattern `/(^|\s)warning\s*:/im` from
`TargetRunner.resolveOutputStatus`. -/
def warningPatternTest (output : String) : Bool :=
  scanPat warningAt true (output.data.map asciiLower)

/-- Status classification `TargetRunner.resolveOutputStatus(exitCode,
output)`: non-zero exit is failed; empty output is success; otherwise the
error pattern wins over the warning pattern. -/
def resolveOutputStatus (exitCode : Int) (output : String) : RunStatus :=
  if exitCode ≠ 0 then .failed
  else if output = "" then .success
  else if errorPatternTest output then .failed
  else if warningPatternTest output then .warning
  else .success

/-! ### State store (`src/state/stateStore.ts`, `src/state/types.ts`) -/

/-- Discovered module, `ModuleInfo` in `src/state/types.ts` (the
`workspaceFolder` handle is not part of any claim and is omitted). -/
structure ModuleInfo where
  id : String
  name : String
  path : String
deriving DecidableEq, Repr

/-- Run result of a (module, target) pair, `RunResult` in
`src/state/types.ts`. -/
structure RunResult where
  status : RunStatus
  exitCode : Option Int := none
  startedAt : Option Nat := none
  finishedAt : Option Nat := none
deriving DecidableEq, Repr

/-- Configure result of a module, `ConfigureResult` in
`src/state/types.ts`. -/
structure ConfigureResult where
  status : ConfigStatus
  output : Option String := none
  updatedAt : Option Nat := none
deriving DecidableEq, Repr

/-- Target definition, `TargetDefinition` in `src/state/types.ts`. -/
structure TargetDefinition where
  name : String
deriving DecidableEq, Repr

/-- Per-module state, `ModuleState` in `src/state/types.ts`. -/
structure ModuleState where
  module : ModuleInfo
  availability : Obj Bool
  runs : Obj RunResult
  generator : Option CMakeGenerator := none
  needsConfigure : Bool := false
  configure : ConfigureResult := { status := .idle }
deriving DecidableEq, Repr

/-- State held by a `StateStore` instance: its `modules` and `targets`
private fields. -/
structure StoreState where
  modules : List ModuleState := []
  targets : List TargetDefinition := []
deriving DecidableEq, Repr

/-- Fresh store, `new StateStore()`. -/
def StoreState.init : StoreState := {}

/-- Back-fill loop of `StateStore.setTargets`: for each target in order,
keep an existing runs entry and create an idle one otherwise
(`runs[t] = runs[t] ?? status idle`). -/
def backfillRuns : List TargetDefinition → Obj RunResult → Obj RunResult
  | [], runs => runs
  | t :: rest, runs =>
    backfillRuns rest
      (match runs.lookup t.name with
       | some _ => runs
       | none => runs.set t.name { status := .idle })

/-- `StateStore.setTargets(targets)`: replace the target list and
back-fill idle run entries on every module. -/
def StoreState.setTargets (s : StoreState) (targets : List TargetDefinition) : StoreState :=
  { modules := s.modules.map (fun ms => { ms with runs := backfillRuns targets ms.runs }),
    targets := targets }

/-- Run-entry initialisation loop of `StateStore.setModules`: assign an
idle entry for every current target in order (`runs[t] = status idle`). -/
def fillIdleRuns : List TargetDefinition → Obj RunResult → Obj RunResult
  | [], runs => runs
  | t :: rest, runs => fillIdleRuns rest (runs.set t.name { status := .idle })

/-- Run entries of a freshly reset module: idle entries for every
current target, starting from the empty object. -/
def freshRuns (targets : List TargetDefinition) : Obj RunResult :=
  fillIdleRuns targets []

/-- `StateStore.setModules(modules)`: wholesale replacement with fresh
per-module defaults, then idle run entries for every current target. -/
def StoreState.setModules (s : StoreState) (modules : List ModuleInfo) : StoreState :=
  { s with
    modules := modules.map (fun m =>
      { module := m
        availability := []
        runs := freshRuns s.targets
        needsConfigure := false
        configure := { status := .idle } }) }

/-- Replace the first list element satisfying the predicate, modelling a
`find`-then-mutate sequence on a JS array. -/
def patchFirst {α : Type} (p : α → Bool) (f : α → α) : List α → List α
  | [] => []
  | x :: xs => if p x then f x :: xs else x :: patchFirst p f xs

/-- `StateStore.getModuleState(moduleId)`. -/
def StoreState.getModuleState (s : StoreState) (moduleId : String) : Option ModuleState :=
  s.modules.find? (fun st => st.module.id = moduleId)

/-- Partial run-result update as passed to `StateStore.updateRun`: each
`some` field models a key present in the JS update object (spread
overrides exactly the present keys). -/
structure RunPatch where
  status : Option RunStatus := none
  exitCode : Option (Option Int) := none
  startedAt : Option Nat := none
  finishedAt : Option Nat := none
deriving DecidableEq, Repr

/-- Spread-merge of an update object into an existing run result. -/
def mergeRun (old : RunResult) (p : RunPatch) : RunResult :=
  { status := p.status.getD old.status
    exitCode := p.exitCode.getD old.exitCode
    startedAt := (p.startedAt.map some).getD old.startedAt
    finishedAt := (p.finishedAt.map some).getD old.finishedAt }

/-- `StateStore.updateRun(moduleId, targetName, update)`: no-op for an
unknown module id, otherwise spread-merge into the addressed entry. The
base for a missing entry is an idle result (every update sent by the
controller carries a `status` key, so the base status is never kept). -/
def StoreState.updateRun (s : StoreState) (moduleId targetName : String) (p : RunPatch) :
    StoreState :=
  { s with
    modules :=
      patchFirst (fun st => st.module.id = moduleId)
        (fun ms =>
          { ms with
            runs := ms.runs.set targetName
              (mergeRun ((ms.runs.lookup targetName).getD { status := .idle }) p) })
        s.modules }

/-- Failed pairs of one module's `runs` object, in entry order. -/
def failedPairs (m : ModuleInfo) (runs : Obj RunResult) : List (ModuleInfo × String) :=
  runs.filterMap (fun e => if e.2.status = .failed then some (m, e.1) else none)

/-- `StateStore.getFailedTargets()`: all (module, target) pairs whose run
status is failed, in module-then-entry iteration order. -/
def StoreState.getFailedTargets (s : StoreState) : List (ModuleInfo × String) :=
  s.modules.flatMap (fun ms => failedPairs ms.module ms.runs)

/-! ### Target runner / scheduler (`src/runner/targetRunner.ts`)

The runner's collaborators are explicit: `Date.now()` is a `now`
argument, and a subprocess result is passed in where the source awaits
it. Each synchronous segment of the event loop is one transition. -/

/-- Update event fired by the runner, `RunUpdate` in
`src/runner/targetRunner.ts`. -/
structure RunUpdate where
  moduleId : String
  target : String
  status : RunStatus
  exitCode : Option Int := none
deriving DecidableEq, Repr

/-- Run request accepted by the runner, `RunRequest` in
`src/runner/targetRunner.ts` (`makeJobs` is a number here because the
controller resolves the `auto` setting to the CPU count before
enqueuing). -/
structure RunRequest where
  module : ModuleInfo
  target : String
  useNinja : Bool := true
  makeJobs : Nat := 1
  autoCloseOnSuccess : Bool := false
  runInTerminal : Bool := true
deriving DecidableEq, Repr

/-- Kind of an in-flight entry, `RunningEntry` in
`src/runner/targetRunner.ts` (the task execution handle itself is
external). -/
inductive RunningKind
  | task
  | silent
deriving DecidableEq, Repr

/-- Mutable state of a `TargetRunner` instance. -/
structure RunnerState where
  maxParallel : Nat
  pending : List RunRequest := []
  running : Obj RunningKind := []
  taskNames : Obj String := []
  modulePaths : Obj String := []
  runStartedAt : Obj Nat := []
  autoCloseOnSuccess : Obj Bool := []
  taskOutput : Obj String := []
deriving DecidableEq, Repr

/-- `TargetRunner.getKey(moduleId, target)`. -/
def getKey (moduleId target : String) : String := moduleId ++ ":" ++ target

/-- Key of a run request. -/
def keyOf (r : RunRequest) : String := getKey r.module.id r.target

/-- Key is queued or in flight: the duplicate test of
`TargetRunner.enqueue` (`running.has(key) || pending.some(...)`). -/
def busyKey (s : RunnerState) (k : String) : Bool :=
  (s.running.lookup k).isSome || s.pending.any (fun i => keyOf i = k)

/-- Synchronous head of `TargetRunner.execute(request)`: record the
bookkeeping maps and the in-flight entry for the request. The `running`
update event it fires is produced by the dispatch loop model below; the
asynchronous continuation of a silent run is `executeSilently`. -/
def dispatch (now : Nat) (s : RunnerState) (r : RunRequest) : RunnerState :=
  let k := keyOf r
  { s with
    modulePaths := s.modulePaths.set k r.module.path
    runStartedAt := s.runStartedAt.set k now
    taskOutput := s.taskOutput.set k ""
    running := s.running.set k (if r.runInTerminal then .task else .silent) }

/-- The `running` transition event fired at dispatch time. -/
def runningUpdate (r : RunRequest) : RunUpdate :=
  { moduleId := r.module.id, target := r.target, status := .running }

/-- Body of the `TargetRunner.kick` while loop, with the pending-queue
length as fuel (each iteration pops one request, so the queue length
bounds the iteration count). -/
def kickAux (now : Nat) : Nat → RunnerState → RunnerState × List RunUpdate
  | 0, s => (s, [])
  | fuel + 1, s =>
    if s.running.length < s.maxParallel then
      match s.pending with
      | [] => (s, [])
      | r :: rest =>
        let s1 := dispatch now { s with pending := rest } r
        let p := kickAux now fuel s1
        (p.1, runningUpdate r :: p.2)
    else (s, [])

/-- `TargetRunner.kick()`: dispatch pending requests while the in-flight
count is below the cap, collecting the fired update events. -/
def RunnerState.kick (now : Nat) (s : RunnerState) : RunnerState × List RunUpdate :=
  kickAux now s.pending.length s

/-- `TargetRunner.enqueue(request)`: silently drop a request whose key is
already queued or in flight, otherwise record the task name and
auto-close flag, push the request, and kick. -/
def RunnerState.enqueue (now : Nat) (s : RunnerState) (r : RunRequest) :
    RunnerState × List RunUpdate :=
  let k := keyOf r
  if busyKey s k then (s, [])
  else
    RunnerState.kick now
      { s with
        taskNames := s.taskNames.set k (r.module.name ++ ":" ++ r.target)
        autoCloseOnSuccess := s.autoCloseOnSuccess.set k r.autoCloseOnSuccess
        pending := s.pending ++ [r] }

/-- `TargetRunner.setMaxParallel(maxParallel)`: update the cap and
re-invoke the dispatch loop. -/
def RunnerState.setMaxParallel (now : Nat) (s : RunnerState) (n : Nat) :
    RunnerState × List RunUpdate :=
  RunnerState.kick now { s with maxParallel := n }

/-- `TargetRunner.handleTaskEnd(event)` after the event filter: remove
the in-flight entry, classify (the diagnostics settle-wait result for a
zero exit is the external `diagStatus` argument), fire the completion,
clean up, and kick. -/
def RunnerState.handleTaskEnd (now : Nat) (diagStatus : RunStatus) (s : RunnerState)
    (moduleId target : String) (exitCode : Option Int) : RunnerState × List RunUpdate :=
  let k := getKey moduleId target
  let s1 := { s with running := s.running.erase k }
  let output := (s1.taskOutput.lookup k).getD ""
  let status0 : RunStatus := if exitCode = some 0 then .success else .failed
  let status1 :=
    if status0 = .success ∧ (s1.modulePaths.lookup k).isSome then diagStatus else status0
  let status2 :=
    if status1 = .success ∧ output ≠ "" then resolveOutputStatus 0 output else status1
  let s2 :=
    { s1 with
      modulePaths := s1.modulePaths.erase k
      runStartedAt := s1.runStartedAt.erase k
      autoCloseOnSuccess := s1.autoCloseOnSuccess.erase k
      taskOutput := s1.taskOutput.erase k }
  let p := s2.kick now
  (p.1, { moduleId := moduleId, target := target, status := status2, exitCode := exitCode } :: p.2)

/-- Result of `runCommandWithExitCode` in `src/utils/exec.ts`: captured
output with an exit code that is absent when the child-process error
carried no numeric code. -/
structure ExecResultWithExitCode where
  stdout : String
  stderr : String
  exitCode : Option Int := none
deriving DecidableEq, Repr

/-- JS `String.prototype.trim` restricted to ASCII whitespace. -/
def trimStr (s : String) : String :=
  String.mk (((s.data.dropWhile isSpaceChar).reverse.dropWhile isSpaceChar).reverse)

/-- Continuation of `TargetRunner.executeSilently(request, key)` once the
captured subprocess result `res` is available: a successful
classification completes directly from silent mode; anything else
escalates by re-dispatching the same request in terminal-attached mode
(`executeInTerminal` on the request with `runInTerminal: true`). -/
def RunnerState.executeSilently (now : Nat) (s : RunnerState) (r : RunRequest) (k : String)
    (res : ExecResultWithExitCode) : RunnerState × List RunUpdate :=
  let output := trimStr (res.stdout ++ "\n" ++ res.stderr)
  let status := resolveOutputStatus (res.exitCode.getD 1) output
  if status = .success then
    let s1 :=
      { s with
        running := s.running.erase k
        modulePaths := s.modulePaths.erase k
        runStartedAt := s.runStartedAt.erase k
        autoCloseOnSuccess := s.autoCloseOnSuccess.erase k }
    let p := s1.kick now
    (p.1,
      { moduleId := r.module.id, target := r.target, status := status
        exitCode := some (res.exitCode.getD 0) } :: p.2)
  else
    let s1 :=
      { s with
        running := s.running.erase k
        autoCloseOnSuccess := s.autoCloseOnSuccess.set k false
        runStartedAt := s.runStartedAt.set k now }
    ({ s1 with
        taskOutput := s1.taskOutput.set k ""
        running := s1.running.set k .task },
      [{ moduleId := r.module.id, target := r.target, status := .running }])

/-! ### Dashboard controller glue (`src/dashboardController.ts`)

Only the enqueue path and the run-update reaction are modelled: these
are what the claims about `rerunFailed` and availability gating need.
The per-module sequential queue bookkeeping (`runAllQueues` etc.) reacts
only to completion events, which do not occur in the enqueue-only flows
below. -/

/-- `makeJobs` setting: `auto` or a positive number. -/
inductive MakeJobs
  | auto
  | jobs (n : Nat)
deriving DecidableEq, Repr

/-- `RunnerSettings` in `src/dashboardController.ts`. -/
structure RunnerSettings where
  buildSystem : BuildSystem
  makeJobs : MakeJobs
  maxParallel : Nat
deriving DecidableEq, Repr

/-- Options object of `DashboardController.enqueueRun`. -/
structure EnqueueOpts where
  autoCloseOnSuccess : Bool := false
  runInTerminal : Bool := true
deriving DecidableEq, Repr

/-- Combined state of one dashboard's store and runner. -/
structure Sys where
  store : StoreState
  runner : RunnerState
deriving DecidableEq, Repr

/-- The controller's `onDidUpdate` reaction on the store: a `running`
update stamps `startedAt`, any other update records the final status,
exit code and `finishedAt`. -/
def applyUpdate (now : Nat) (st : StoreState) (u : RunUpdate) : StoreState :=
  if u.status = .running then
    st.updateRun u.moduleId u.target { status := some .running, startedAt := some now }
  else
    st.updateRun u.moduleId u.target
      { status := some u.status, exitCode := some u.exitCode, finishedAt := some now }

/-- Request construction inside `DashboardController.enqueueRun`:
`useNinja` prefers the module's recorded generator over the build-system
setting, and the `auto` job count resolves to the CPU count. -/
def buildRequest (cpuCount : Nat) (settings : RunnerSettings) (opts : EnqueueOpts)
    (ms : ModuleState) (m : ModuleInfo) (target : String) : RunRequest :=
  { module := m
    target := target
    useNinja :=
      match ms.generator with
      | some g => g = CMakeGenerator.ninja
      | none => settings.buildSystem ≠ .make
    makeJobs :=
      match settings.makeJobs with
      | .auto => cpuCount
      | .jobs n => n
    autoCloseOnSuccess := opts.autoCloseOnSuccess
    runInTerminal := opts.runInTerminal }

/-- `DashboardController.enqueueRun(module, target, settings, options)`:
gated on a known module state whose availability flag for the target is
true; on success builds the run request and hands it to the runner. The
`running` events fired synchronously during the runner's kick are folded
into the store (the store is not read while they fire, so applying them
after the kick is equivalent). -/
def enqueueRun (now cpuCount : Nat) (settings : RunnerSettings) (opts : EnqueueOpts)
    (sys : Sys) (m : ModuleInfo) (target : String) : Sys :=
  match sys.store.getModuleState m.id with
  | none => sys
  | some ms =>
    if (ms.availability.lookup target).getD false = false then sys
    else
      let p := sys.runner.enqueue now (buildRequest cpuCount settings opts ms m target)
      { store := p.2.foldl (applyUpdate now) sys.store, runner := p.1 }

/-- `DashboardController.enqueueRunById(moduleId, target)`: resolve the
module state by id (no-op when unknown) and delegate to `enqueueRun`
with default options. -/
def enqueueRunById (now cpuCount : Nat) (settings : RunnerSettings) (sys : Sys)
    (moduleId target : String) : Sys :=
  match sys.store.modules.find? (fun st => st.module.id = moduleId) with
  | none => sys
  | some ms => enqueueRun now cpuCount settings {} sys ms.module target

/-- One iteration of the `rerunFailed` loop: enqueue a failed (module,
target) pair with default options. -/
def rerunStep (now cpuCount : Nat) (settings : RunnerSettings) (acc : Sys)
    (pr : ModuleInfo × String) : Sys :=
  enqueueRun now cpuCount settings {} acc pr.1 pr.2

/-- `DashboardController.rerunFailed()`: enqueue every (module, target)
pair currently failed, via the normal gated enqueue path; the failed
list is computed once at entry. -/
def rerunFailed (now cpuCount : Nat) (settings : RunnerSettings) (sys : Sys) : Sys :=
  (sys.store.getFailedTargets).foldl (rerunStep now cpuCount settings) sys

/-! ### Generator selector (`src/cmake/generator.ts`)

Filesystem and probe collaborators are explicit: `cacheContents` is the
result of reading `outDir/CMakeCache.txt` (`none` models a rejected
read: missing or unreadable file), `ninjaAvailable` the result of
`commandExists('ninja')`. -/

/-- Split a string at every JS line terminator (`\n` or `\r`), the line
structure seen by a multiline-anchored regex. -/
def splitLinesAny (s : String) : List String :=
  splitAux [] s.data
where
  splitAux : List Char → List Char → List String
    | acc, [] => [String.mk acc.reverse]
    | acc, c :: cs =>
      if c = '\n' || c = '\r' then String.mk acc.reverse :: splitAux [] cs
      else splitAux (c :: acc) cs

/-- Value captured by `/^CMAKE_GENERATOR:INTERNAL=(.+)$/m` on one line:
the non-empty remainder after the literal line head. -/
def genLineValue (line : String) : Option String :=
  let head := "CMAKE_GENERATOR:INTERNAL="
  match matchLit head.data line.data with
  | some rest => if rest.isEmpty then none else some (String.mk rest)
  | none => none

/-- First line of the cache contents matched by the generator regex. -/
def findGeneratorLine (contents : String) : Option String :=
  (splitLinesAny contents).findSome? genLineValue

/-- `detectExistingGenerator(outDir)`: read the cache (a failed read
yields `null`), find the `CMAKE_GENERATOR:INTERNAL` line, and accept
only the two known generator names after trimming. -/
def detectExistingGenerator (cacheContents : Option String) : Option CMakeGenerator :=
  match cacheContents with
  | none => none
  | some contents =>
    match findGeneratorLine contents with
    | none => none
    | some value =>
      if trimStr value = "Ninja" then some .ninja
      else if trimStr value = "Unix Makefiles" then some .unixMakefiles
      else none

/-- `selectGenerator(buildSystem, outDir)`: explicit preferences return
directly; `auto` prefers an existing cache generator, then the ninja
probe, then Unix Makefiles. -/
def selectGenerator (buildSystem : BuildSystem) (cacheContents : Option String)
    (ninjaAvailable : Bool) : CMakeGenerator :=
  if buildSystem = .ninja then .ninja
  else if buildSystem = .make then .unixMakefiles
  else
    match detectExistingGenerator cacheContents with
    | some existing => existing
    | none => if ninjaAvailable then .ninja else .unixMakefiles

/-! ### Configure runner (`src/cmake/configure.ts`) -/

/-- Result kind of an `fs.stat` call: `none` models a rejected stat. -/
inductive StatKind
  | file
  | dir
  | other
deriving DecidableEq, Repr

/-- Captured output of `runCommand` in `src/utils/exec.ts` (which
resolves only for a zero exit). -/
structure ExecResult where
  stdout : String
  stderr : String
deriving DecidableEq, Repr

/-- Error thrown by a rejected `execFile` promise, as far as the claims
need it. -/
structure ExecError where
  message : String
deriving DecidableEq, Repr

/-- `hasCMakeCache(modulePath)`: the stat of `outDir/CMakeCache.txt`
succeeded and names a regular file. -/
def hasCMakeCache (cacheStat : Option StatKind) : Bool :=
  cacheStat = some .file

/-- Result record of `ensureConfigured`. -/
structure ConfigureRunResult where
  configured : Bool
  generator : CMakeGenerator
  output : String
deriving DecidableEq, Repr

/-- Filesystem-mutating action taken by `ensureConfigured`, recorded in
order. -/
inductive ConfigureAction
  | mkdirOutDir
  | runConfigure (generator : CMakeGenerator)
deriving DecidableEq, Repr

/-- The `[stdout, stderr].filter(Boolean).join('\n')` output combination
of `ensureConfigured`. -/
def combineOutput (r : ExecResult) : String :=
  String.intercalate "\n" (([r.stdout, r.stderr]).filter (fun s => s ≠ ""))

/-- Outcome of `fs.mkdir(outDir, { recursive: true })` given the stat
of `outDir`: recursive mkdir succeeds when the path is absent or
already a directory, and rejects with EEXIST when a non-directory entry
occupies it (the same filesystem underlies the stat and the mkdir, so
the outcome is determined by the stat). -/
def mkdirRecursive (outDirStat : Option StatKind) : Except ExecError Unit :=
  match outDirStat with
  | none => .ok ()
  | some .dir => .ok ()
  | some .file => .error { message := "EEXIST: file already exists" }
  | some .other => .error { message := "EEXIST: file already exists" }

/-- `ensureConfigured(modulePath, buildSystem)`. Collaborator arguments:
`outDirStat`/`cacheStat` are the stats of the output directory and the
cache file, `cacheContents`/`ninjaAvailable` feed `selectGenerator`, and
`configureExec` is the result of the configure subprocess when it is
run. Returns the actions performed alongside the result; there is no
catch around the mkdir or configure calls, so a rejected mkdir
propagates as `.error` before configure runs, and a rejected configure
command propagates as `.error` after it. -/
def ensureConfigured (outDirStat cacheStat : Option StatKind) (cacheContents : Option String)
    (ninjaAvailable : Bool) (configureExec : Except ExecError ExecResult)
    (buildSystem : BuildSystem) :
    List ConfigureAction × Except ExecError ConfigureRunResult :=
  let outDirExists := outDirStat = some StatKind.dir
  let generator := selectGenerator buildSystem cacheContents ninjaAvailable
  if outDirExists ∧ hasCMakeCache cacheStat then
    ([],
      .ok { configured := false, generator := generator
            output := "Skipped configure (existing CMake cache)." })
  else
    match mkdirRecursive outDirStat with
    | .error e => ([.mkdirOutDir], .error e)
    | .ok _ =>
      match configureExec with
      | .error e => ([.mkdirOutDir, .runConfigure generator], .error e)
      | .ok result =>
        ([.mkdirOutDir, .runConfigure generator],
          .ok { configured := true, generator := generator, output := combineOutput result })

/-! ### Module discovery (`src/discovery/modules.ts`)

The filesystem is explicit: `rootListing` is the `readdir` result of the
module root (`none` models a rejected read) and `childListing` maps a
child directory name to its own `readdir` result. Sorting uses a model
of `String.prototype.localeCompare` (ICU default collation restricted to
ASCII): letters compare case-insensitively at the primary level and a
lower-case letter precedes its upper-case form, so for example
`'a'.localeCompare('B') < 0` although `'B' < 'a'` by code point. -/

/-- Directory entry as seen through `fs.readdir(..., withFileTypes)`. -/
structure DirEntry where
  name : String
  kind : StatKind
deriving DecidableEq, Repr

/-- `isModuleDirectory(dirPath)`: the listing succeeded and holds a file
named `CMakeLists.txt` or `custom_targets.cmake`; a rejected listing
yields false. -/
def isModuleDirectory (listing : Option (List DirEntry)) : Bool :=
  match listing with
  | none => false
  | some entries =>
    entries.any (fun e =>
      e.kind = StatKind.file && (e.name = "CMakeLists.txt" || e.name = "custom_targets.cmake"))

/-- Strict lexicographic order on lists of naturals. -/
def lexLt : List Nat → List Nat → Bool
  | [], [] => false
  | [], _ :: _ => true
  | _ :: _, [] => false
  | a :: as, b :: bs => if a < b then true else if b < a then false else lexLt as bs

/-- Primary collation key: ASCII-case-folded code points. -/
def primaryKey (s : String) : List Nat := s.data.map (fun c => (asciiLower c).toNat)

/-- Tertiary collation key: case flags, lower case ordered first. -/
def tertiaryKey (s : String) : List Nat :=
  s.data.map (fun c => if 'A' ≤ c ∧ c ≤ 'Z' then 1 else 0)

/-- Model of `a.localeCompare(b) < 0` for ASCII strings. -/
def localeLt (a b : String) : Bool :=
  lexLt (primaryKey a) (primaryKey b) ||
    (primaryKey a = primaryKey b && lexLt (tertiaryKey a) (tertiaryKey b))

/-- Insert into a list sorted by the strict order `lt`, before the first
strictly greater element. -/
def insertSorted {α : Type} (lt : α → α → Bool) (x : α) : List α → List α
  | [] => [x]
  | y :: ys => if lt x y then x :: y :: ys else y :: insertSorted lt x ys

/-- Comparator sort modelling `Array.prototype.sort(cmp)` for ascending
comparators (the discovered names are distinct, so any comparator sort
produces this order). -/
def sortBy {α : Type} (lt : α → α → Bool) : List α → List α
  | [] => []
  | x :: xs => insertSorted lt x (sortBy lt xs)

/-- The per-entry body of the `discoverModules` loop: skip non-directory
entries, skip excluded names, keep entries whose own listing shows a
marker file, and build the `ModuleInfo` (id from the raw template, path
from `path.join`). -/
def moduleEntry (workspaceFsPath modulesRoot : String)
    (childListing : String → Option (List DirEntry)) (excludedModules : List String)
    (e : DirEntry) : Option ModuleInfo :=
  if e.kind ≠ StatKind.dir then none
  else if excludedModules.contains e.name then none
  else if isModuleDirectory (childListing e.name) then
    some
      { id := workspaceFsPath ++ ":" ++ modulesRoot ++ ":" ++ e.name
        name := e.name
        path := workspaceFsPath ++ "/" ++ modulesRoot ++ "/" ++ e.name }
  else none

/-- `discoverModules(workspaceFolder, modulesRoot, excludedModules)`:
keep directory entries that are not excluded and look like modules,
build `ModuleInfo`s, and sort by display name with `localeCompare`. A
rejected root listing yields the empty list. -/
def discoverModules (workspaceFsPath modulesRoot : String)
    (rootListing : Option (List DirEntry)) (childListing : String → Option (List DirEntry))
    (excludedModules : List String) : List ModuleInfo :=
  match rootListing with
  | none => []
  | some entries =>
    sortBy (fun a b => localeLt a.name b.name)
      (entries.filterMap (moduleEntry workspaceFsPath modulesRoot childListing excludedModules))

/-- Case-sensitive code-point lexical order on strings. -/
def codePointLt (a b : String) : Bool :=
  lexLt (a.data.map Char.toNat) (b.data.map Char.toNat)

/-- Discovery as the claim words it, for comparison: identical filtering
but sorted by name in case-sensitive code-point lexical ascending
order. -/
def discoverModulesCodePointSpec (workspaceFsPath modulesRoot : String)
    (rootListing : Option (List DirEntry)) (childListing : String → Option (List DirEntry))
    (excludedModules : List String) : List ModuleInfo :=
  match rootListing with
  | none => []
  | some entries =>
    sortBy (fun a b => codePointLt a.name b.name)
      (entries.filterMap (moduleEntry workspaceFsPath modulesRoot childListing excludedModules))

/-! ### Target detector (`src/cmake/targets.ts`)

The four possible introspection subprocess calls are oracle values; a
`.error` field models a rejected `runCommand` promise (the command
exited non-zero or could not be spawned). The target `Set` is an
insertion-ordered list without duplicates. -/

/-- Split at `\r\n` or `\n`, the `output.split(/\r?\n/)` line structure
(a lone `\r` stays inside its line). -/
def splitCRLF (s : String) : List String :=
  splitAux [] s.data
where
  splitAux : List Char → List Char → List String
    | acc, [] => [String.mk acc.reverse]
    | acc, '\r' :: '\n' :: cs => String.mk acc.reverse :: splitAux [] cs
    | acc, '\n' :: cs => String.mk acc.reverse :: splitAux [] cs
    | acc, c :: cs => splitAux (c :: acc) cs

/-- `Set.add` semantics on the insertion-ordered target list. -/
def addTarget (ts : List String) (t : String) : List String :=
  if ts.contains t then ts else ts ++ [t]

/-- Longest prefix not containing a stop character, modelling
`split(regex)[0]` on a string without a leading separator. -/
def firstTokenUntil (stop : Char → Bool) (s : List Char) : List Char :=
  s.takeWhile (fun c => !stop c)

/-- One line of `collectNinjaTargets`: trim, skip empty lines, keep the
token before the first colon or whitespace when non-empty. -/
def collectNinjaLine (ts : List String) (line : String) : List String :=
  let trimmed := trimStr line
  if trimmed = "" then ts
  else
    let token := firstTokenUntil (fun c => c = ':' || isSpaceChar c) trimmed.data
    if token.isEmpty then ts else addTarget ts (String.mk token)

/-- `collectNinjaTargets(output, targets)`. -/
def collectNinjaTargets (output : String) (ts : List String) : List String :=
  (splitCRLF output).foldl collectNinjaLine ts

/-- Character class `[A-Za-z0-9_.:+-]` of the `... target` regex. -/
def isDotsClassChar (c : Char) : Bool :=
  isWordChar c || c = '.' || c = ':' || c = '+' || c = '-'

/-- Drop trailing non-word characters: the backtracking forced by the
trailing `\b` after the greedy character-class capture (the character
following the capture is never a word character, so the boundary holds
exactly when the capture ends in one). -/
def trimToWordEnd (l : List Char) : List Char :=
  (l.reverse.dropWhile (fun c => !isWordChar c)).reverse

/-- Capture of `/^\s*\.\.\.\s+([A-Za-z0-9_.:+-]+)\b/` on one line, when
the regex matches. -/
def matchDotsLine (line : List Char) : Option String :=
  let afterWs := line.dropWhile isSpaceChar
  match matchLit "...".data afterWs with
  | none => none
  | some rest =>
    match rest with
    | [] => none
    | c :: rest2 =>
      if isSpaceChar c then
        let body := rest2.dropWhile isSpaceChar
        let capture := trimToWordEnd (body.takeWhile isDotsClassChar)
        if capture.isEmpty then none else some (String.mk capture)
      else none

/-- Lower-cased `startsWith` test for the instructional-header skip. -/
def startsWithTheFollowing (trimmed : String) : Bool :=
  (matchLit "the following".data (trimmed.data.map asciiLower)).isSome

/-- One line of `collectTargetsFromLines`: an authoritative `... target`
line wins; otherwise trim, skip blanks and `the following` headers, take
the first whitespace-delimited token and strip anything after a colon. -/
def collectHelpLine (ts : List String) (line : String) : List String :=
  match matchDotsLine line.data with
  | some t => addTarget ts t
  | none =>
    let trimmed := trimStr line
    if trimmed = "" then ts
    else if startsWithTheFollowing trimmed then ts
    else
      let token := firstTokenUntil isSpaceChar trimmed.data
      let cleaned := token.takeWhile (fun c => c ≠ ':')
      if cleaned.isEmpty then ts else addTarget ts (String.mk cleaned)

/-- `collectTargetsFromLines(output, targets)`. -/
def collectTargetsFromLines (output : String) (ts : List String) : List String :=
  (splitCRLF output).foldl collectHelpLine ts

/-- Oracle results of the introspection commands `detectTargets` may
run: `ninja -C out -t targets`, `ninja -C out -t targets all`,
`cmake --build out --target help`, and `make -C outDir help`. -/
structure DetectEnv where
  ninjaTargets : Except ExecError ExecResult
  ninjaTargetsAll : Except ExecError ExecResult
  cmakeHelp : Except ExecError ExecResult
  makeHelp : Except ExecError ExecResult
deriving Repr

/-- The `stdout + '\n' + stderr` combination used for every parse. -/
def combinedOutput (r : ExecResult) : String := r.stdout ++ "\n" ++ r.stderr

/-- `detectTargets(modulePath, generator)`: generator-specific
introspection with help-target fallbacks; a rejected command propagates
(there is no catch in this function). -/
def detectTargets (env : DetectEnv) (generator : CMakeGenerator) :
    Except ExecError (List String) :=
  match generator with
  | .ninja => do
    let r ← env.ninjaTargets
    let t1 := collectNinjaTargets (combinedOutput r) []
    let rAll ← env.ninjaTargetsAll
    let t2 := collectNinjaTargets (combinedOutput rAll) t1
    if t2.isEmpty then do
      let fb ← env.cmakeHelp
      pure (collectTargetsFromLines (combinedOutput fb) t2)
    else
      pure t2
  | .unixMakefiles => do
    let r ← env.cmakeHelp
    let t := collectTargetsFromLines (combinedOutput r) []
    if t.isEmpty then do
      let fb ← env.makeHelp
      pure (collectTargetsFromLines (combinedOutput fb) t)
    else
      pure t

/-! ### Claim C3: status classification -/

/-- C3: the status classification satisfies the table: any non-zero (or
unknown, which the silent path folds to 1) exit code is failed
regardless of output; exit 0 with the literal warning output is
warning; exit 0 with the literal error output is failed; an
error-pattern match takes precedence over any warning-pattern match;
exit 0 with empty output (and no diagnostics) is success. -/
theorem c3_status_classification :
    (∀ (exitCode : Int) (output : String), exitCode ≠ 0 →
        resolveOutputStatus exitCode output = .failed) ∧
    resolveOutputStatus 0 "file.c:10: warning: unused variable" = .warning ∧
    resolveOutputStatus 0 "file.c:10: error: undefined reference" = .failed ∧
    (∀ output : String, errorPatternTest output = true →
        resolveOutputStatus 0 output = .failed) ∧
    resolveOutputStatus 0 "" = .success ∧
    (∀ output : String, resolveOutputStatus ((none : Option Int).getD 1) output = .failed) := by
  refine ⟨?_, by decide, by decide, ?_, by decide, ?_⟩
  · intro e out h
    simp [resolveOutputStatus, h]
  · intro out h
    by_cases hout : out = ""
    · subst hout
      simp [errorPatternTest, scanPat, errorAt, matchLit] at h
    · simp [resolveOutputStatus, hout, h]
  · intro out
    simp [resolveOutputStatus, Option.getD]

/-- Witness for C3 at concrete inputs. -/
theorem c3_status_classification_w :
    resolveOutputStatus 1 "x" = .failed ∧ resolveOutputStatus 0 "a error: b" = .failed :=
  ⟨c3_status_classification.1 1 "x" (by decide),
   c3_status_classification.2.2.2.1 "a error: b" (by decide)⟩

/-! ### Claim C7: generator selection -/

/-- C7: explicit preferences return their generator independently of the
cache contents and the ninja probe (no filesystem access); `auto`
returns the generator found on the cache's `CMAKE_GENERATOR:INTERNAL`
line when it names a known generator, otherwise Ninja exactly when the
probe succeeds, with Unix Makefiles as the final fallback; a missing or
unreadable cache (`none`) degrades the same way. -/
theorem c7_select_generator :
    (∀ (cc : Option String) (na : Bool), selectGenerator .ninja cc na = .ninja) ∧
    (∀ (cc : Option String) (na : Bool), selectGenerator .make cc na = .unixMakefiles) ∧
    (∀ (cc : Option String) (na : Bool) (g : CMakeGenerator),
        detectExistingGenerator cc = some g → selectGenerator .auto cc na = g) ∧
    (∀ (cc : Option String) (na : Bool), detectExistingGenerator cc = none →
        selectGenerator .auto cc na = if na then .ninja else .unixMakefiles) ∧
    (∀ na : Bool, selectGenerator .auto none na = if na then .ninja else .unixMakefiles) := by
  refine ⟨fun cc na => rfl, fun cc na => rfl, ?_, ?_, ?_⟩
  · intro cc na g h
    simp [selectGenerator, h]
  · intro cc na h
    simp [selectGenerator, h]
  · intro na
    simp [selectGenerator, detectExistingGenerator]

/-- Witness for C7 at concrete caches: an existing Ninja cache wins over
a failing probe, and an unknown generator value falls through to the
probe. -/
theorem c7_select_generator_w :
    selectGenerator .auto (some "CMAKE_GENERATOR:INTERNAL=Ninja") false = .ninja ∧
    selectGenerator .auto (some "CMAKE_GENERATOR:INTERNAL=Borland") true =
      if true then .ninja else .unixMakefiles :=
  ⟨c7_select_generator.2.2.1 (some "CMAKE_GENERATOR:INTERNAL=Ninja") false .ninja (by decide),
   c7_select_generator.2.2.2.1 (some "CMAKE_GENERATOR:INTERNAL=Borland") true (by decide)⟩

/-! ### Claim C9: ensureConfigured idempotence -/

/-- C9: when the output directory exists and holds a cache file,
`ensureConfigured` skips: it performs no filesystem action (in
particular it does not run the configure command), and returns
configured = false with the selected generator, independently of what
the configure command would have produced; otherwise it creates the
output directory and, when that creation succeeds, runs configure with
the selected generator, returning configured = true with the combined
captured stdout/stderr on a successful configure — while a failing
mkdir (a non-directory entry at the output path) propagates before the
configure command is ever run. -/
theorem c9_ensure_configured :
    (∀ (outDirStat cacheStat : Option StatKind) (cc : Option String) (na : Bool)
        (exec : Except ExecError ExecResult) (bs : BuildSystem),
        outDirStat = some .dir → hasCMakeCache cacheStat = true →
        ensureConfigured outDirStat cacheStat cc na exec bs =
          ([], .ok { configured := false, generator := selectGenerator bs cc na,
                     output := "Skipped configure (existing CMake cache)." })) ∧
    (∀ (outDirStat cacheStat : Option StatKind) (cc : Option String) (na : Bool)
        (bs : BuildSystem) (res : ExecResult),
        ¬(outDirStat = some StatKind.dir ∧ hasCMakeCache cacheStat = true) →
        mkdirRecursive outDirStat = .ok () →
        ensureConfigured outDirStat cacheStat cc na (.ok res) bs =
          ([.mkdirOutDir, .runConfigure (selectGenerator bs cc na)],
            .ok { configured := true, generator := selectGenerator bs cc na,
                  output := combineOutput res })) ∧
    (∀ (outDirStat cacheStat : Option StatKind) (cc : Option String) (na : Bool)
        (exec : Except ExecError ExecResult) (bs : BuildSystem) (e : ExecError),
        mkdirRecursive outDirStat = .error e →
        ensureConfigured outDirStat cacheStat cc na exec bs =
          ([.mkdirOutDir], .error e)) := by
  refine ⟨?_, ?_, ?_⟩
  · intro outDirStat cacheStat cc na exec bs h1 h2
    simp [ensureConfigured, h1, h2]
  · intro outDirStat cacheStat cc na bs res h hmk
    simp only [ensureConfigured]
    rw [if_neg (fun hcontra => h ⟨hcontra.1, by simpa using hcontra.2⟩), hmk]
  · intro outDirStat cacheStat cc na exec bs e hmk
    have hne : outDirStat ≠ some StatKind.dir := by
      intro heq
      rw [heq] at hmk
      exact absurd hmk (by simp [mkdirRecursive])
    simp only [ensureConfigured]
    rw [if_neg (fun hcontra => hne hcontra.1), hmk]

/-- Witness for C9: the skip path at an existing cache, the configure
path at a missing output directory, and the mkdir rejection at a
regular file occupying the output path. -/
theorem c9_ensure_configured_w :
    ensureConfigured (some .dir) (some .file) none false (.ok ⟨"out", "err"⟩) .make =
      ([], .ok { configured := false, generator := selectGenerator .make none false,
                 output := "Skipped configure (existing CMake cache)." }) ∧
    ensureConfigured none none none false (.ok ⟨"cfg", ""⟩) .ninja =
      ([.mkdirOutDir, .runConfigure (selectGenerator .ninja none false)],
        .ok { configured := true, generator := selectGenerator .ninja none false,
              output := combineOutput ⟨"cfg", ""⟩ }) ∧
    ensureConfigured (some .file) none none false (.ok ⟨"cfg", ""⟩) .ninja =
      ([.mkdirOutDir], .error { message := "EEXIST: file already exists" }) :=
  ⟨c9_ensure_configured.1 (some .dir) (some .file) none false (.ok ⟨"out", "err"⟩) .make rfl rfl,
   c9_ensure_configured.2.1 none none none false .ninja ⟨"cfg", ""⟩ (by simp [hasCMakeCache]) rfl,
   c9_ensure_configured.2.2 (some .file) none none false (.ok ⟨"cfg", ""⟩) .ninja
     { message := "EEXIST: file already exists" } rfl⟩

/-! ### Claim C5: silent-mode escalation -/

/-- C5: a silent run whose captured result does not classify as success
is not reported as a final status: the only event fired is the
synthetic `running` transition and the same (module, target) request is
re-dispatched as a terminal-attached task entry under its key; only a
silent run classifying as success emits its completion event directly
from silent mode. -/
theorem c5_silent_escalation (now : Nat) (s : RunnerState) (r : RunRequest) (k : String)
    (res : ExecResultWithExitCode) :
    (resolveOutputStatus (res.exitCode.getD 1) (trimStr (res.stdout ++ "\n" ++ res.stderr)) ≠
        .success →
      (s.executeSilently now r k res).2 =
          [{ moduleId := r.module.id, target := r.target, status := .running }] ∧
      ((s.executeSilently now r k res).1.running.lookup k) = some .task) ∧
    (resolveOutputStatus (res.exitCode.getD 1) (trimStr (res.stdout ++ "\n" ++ res.stderr)) =
        .success →
      (s.executeSilently now r k res).2.head? =
        some { moduleId := r.module.id, target := r.target, status := .success,
               exitCode := some (res.exitCode.getD 0) }) := by
  constructor
  · intro h
    refine ⟨?_, ?_⟩
    · simp [RunnerState.executeSilently, h]
    · simp only [RunnerState.executeSilently, if_neg h]
      rw [Obj.lookup_set, if_pos rfl]
  · intro h
    simp [RunnerState.executeSilently, h]

/-- Witness for C5: a zero-exit silent run whose output matches the
error pattern escalates; a clean silent run completes silently. -/
theorem c5_silent_escalation_w :
    ((RunnerState.mk 2 [] [("w:m:a:all", .silent)] [] [] [] [] []).executeSilently 7
          { module := ⟨"w:m:a", "a", "/w/m/a"⟩, target := "all", runInTerminal := false }
          "w:m:a:all" ⟨"boom error: x", "", some 0⟩).2 =
        [{ moduleId := "w:m:a", target := "all", status := .running }] ∧
    ((RunnerState.mk 2 [] [("w:m:a:all", .silent)] [] [] [] [] []).executeSilently 7
          { module := ⟨"w:m:a", "a", "/w/m/a"⟩, target := "all", runInTerminal := false }
          "w:m:a:all" ⟨"fine", "", some 0⟩).2.head? =
        some { moduleId := "w:m:a", target := "all", status := .success, exitCode := some 0 } :=
  ⟨((c5_silent_escalation 7 (RunnerState.mk 2 [] [("w:m:a:all", .silent)] [] [] [] [] [])
      { module := ⟨"w:m:a", "a", "/w/m/a"⟩, target := "all", runInTerminal := false }
      "w:m:a:all" ⟨"boom error: x", "", some 0⟩).1 (by decide)).1,
   (c5_silent_escalation 7 (RunnerState.mk 2 [] [("w:m:a:all", .silent)] [] [] [] [] [])
      { module := ⟨"w:m:a", "a", "/w/m/a"⟩, target := "all", runInTerminal := false }
      "w:m:a:all" ⟨"fine", "", some 0⟩).2 (by decide)⟩

/-! ### Claim C6: detection error handling -/

/-- Counterexample to C6: when the first introspection command fails
(its promise rejects), `detectTargets` does not degrade to an empty
target set — it propagates the rejection, because `runCommand` throws on
a non-zero exit and `detectTargets` has no catch. -/
theorem c6_detect_targets_cex :
    detectTargets
        ⟨.error ⟨"Command failed: ninja -C out -t targets"⟩, .ok ⟨"", ""⟩, .ok ⟨"", ""⟩,
          .ok ⟨"", ""⟩⟩ .ninja =
      .error ⟨"Command failed: ninja -C out -t targets"⟩ := rfl

/-- C6 amended: when every introspection command it runs succeeds,
`detectTargets` never fails — it returns a target list, and in
particular all-empty outputs yield the empty set (all targets then
unavailable downstream); a rejected introspection command, however,
propagates out of `detectTargets` (and is caught by the caller). -/
theorem c6_detect_targets_amended :
    (∀ (env : DetectEnv) (g : CMakeGenerator),
        (∃ r1 r2 r3 r4, env = ⟨.ok r1, .ok r2, .ok r3, .ok r4⟩) →
        ∃ ts, detectTargets env g = .ok ts) ∧
    (∀ g : CMakeGenerator,
        detectTargets ⟨.ok ⟨"", ""⟩, .ok ⟨"", ""⟩, .ok ⟨"", ""⟩, .ok ⟨"", ""⟩⟩ g = .ok []) := by
  constructor
  · rintro env g ⟨r1, r2, r3, r4, rfl⟩
    cases g with
    | ninja =>
      have hrw :
          detectTargets ⟨.ok r1, .ok r2, .ok r3, .ok r4⟩ .ninja =
            if (collectNinjaTargets (combinedOutput r2)
                  (collectNinjaTargets (combinedOutput r1) [])).isEmpty then
              .ok (collectTargetsFromLines (combinedOutput r3)
                (collectNinjaTargets (combinedOutput r2)
                  (collectNinjaTargets (combinedOutput r1) [])))
            else
              .ok (collectNinjaTargets (combinedOutput r2)
                (collectNinjaTargets (combinedOutput r1) [])) := rfl
      by_cases h :
          (collectNinjaTargets (combinedOutput r2)
            (collectNinjaTargets (combinedOutput r1) [])).isEmpty
      · exact ⟨_, by rw [hrw, if_pos h]⟩
      · exact ⟨_, by rw [hrw, if_neg h]⟩
    | unixMakefiles =>
      have hrw :
          detectTargets ⟨.ok r1, .ok r2, .ok r3, .ok r4⟩ .unixMakefiles =
            if (collectTargetsFromLines (combinedOutput r3) []).isEmpty then
              .ok (collectTargetsFromLines (combinedOutput r4)
                (collectTargetsFromLines (combinedOutput r3) []))
            else
              .ok (collectTargetsFromLines (combinedOutput r3) []) := rfl
      by_cases h : (collectTargetsFromLines (combinedOutput r3) []).isEmpty
      · exact ⟨_, by rw [hrw, if_pos h]⟩
      · exact ⟨_, by rw [hrw, if_neg h]⟩
  · intro g
    cases g <;> rfl

/-- Witness for the amended C6 at a concrete all-success environment. -/
theorem c6_detect_targets_amended_w :
    ∃ ts,
      detectTargets ⟨.ok ⟨"clean: phony", ""⟩, .ok ⟨"", ""⟩, .ok ⟨"", ""⟩, .ok ⟨"", ""⟩⟩
          .ninja = .ok ts :=
  c6_detect_targets_amended.1
    ⟨.ok ⟨"clean: phony", ""⟩, .ok ⟨"", ""⟩, .ok ⟨"", ""⟩, .ok ⟨"", ""⟩⟩ .ninja
    ⟨⟨"clean: phony", ""⟩, ⟨"", ""⟩, ⟨"", ""⟩, ⟨"", ""⟩, rfl⟩

/-! ### Order and sort lemmas for discovery -/

theorem lexLt_irrefl (a : List Nat) : lexLt a a = false := by
  induction a with
  | nil => rfl
  | cons x xs ih => simp [lexLt, Nat.lt_irrefl, ih]

theorem lexLt_asymm : ∀ a b : List Nat, lexLt a b = true → lexLt b a = false := by
  intro a
  induction a with
  | nil =>
    intro b _
    cases b with
    | nil => rfl
    | cons y ys => rfl
  | cons x xs ih =>
    intro b h
    cases b with
    | nil => simp [lexLt] at h
    | cons y ys =>
      simp only [lexLt] at h ⊢
      by_cases hxy : x < y
      · rw [if_neg (Nat.lt_asymm hxy), if_pos hxy]
      · rw [if_neg hxy] at h
        by_cases hyx : y < x
        · rw [if_pos hyx] at h
          exact absurd h (by simp)
        · rw [if_neg hyx] at h
          rw [if_neg hyx, if_neg hxy]
          exact ih ys h

theorem lexLt_trans : ∀ a b c : List Nat, lexLt a b = true → lexLt b c = true →
    lexLt a c = true := by
  intro a
  induction a with
  | nil =>
    intro b c hab hbc
    cases b with
    | nil => simp [lexLt] at hab
    | cons y ys =>
      cases c with
      | nil => simp [lexLt] at hbc
      | cons z zs => rfl
  | cons x xs ih =>
    intro b c hab hbc
    cases b with
    | nil => simp [lexLt] at hab
    | cons y ys =>
      cases c with
      | nil => simp [lexLt] at hbc
      | cons z zs =>
        simp only [lexLt] at hab hbc ⊢
        by_cases hxy : x < y
        · by_cases hyz : y < z
          · rw [if_pos (Nat.lt_trans hxy hyz)]
          · rw [if_neg hyz] at hbc
            by_cases hzy : z < y
            · rw [if_pos hzy] at hbc
              exact absurd hbc (by simp)
            · have : y = z := by omega
              rw [if_pos (this ▸ hxy)]
        · rw [if_neg hxy] at hab
          by_cases hyx : y < x
          · rw [if_pos hyx] at hab
            exact absurd hab (by simp)
          · rw [if_neg hyx] at hab
            have hxey : x = y := by omega
            by_cases hyz : y < z
            · rw [if_pos (hxey ▸ hyz)]
            · rw [if_neg hyz] at hbc
              by_cases hzy : z < y
              · rw [if_pos hzy] at hbc
                exact absurd hbc (by simp)
              · rw [if_neg hzy] at hbc
                have hxz : ¬x < z := by omega
                have hzx : ¬z < x := by omega
                rw [if_neg hxz, if_neg hzx]
                exact ih ys zs hab hbc

theorem localeLt_asymm (a b : String) (h : localeLt a b = true) : localeLt b a = false := by
  simp only [localeLt, Bool.or_eq_true, Bool.and_eq_true, decide_eq_true_eq] at h
  rcases h with h | ⟨hp, ht⟩
  · have hpne : primaryKey b ≠ primaryKey a := by
      intro he
      rw [← he] at h
      exact absurd h (by simp [lexLt_irrefl])
    simp [localeLt, lexLt_asymm _ _ h, hpne]
  · simp [localeLt, hp, lexLt_irrefl, lexLt_asymm _ _ ht]

theorem localeLt_trans (a b c : String) (hab : localeLt a b = true)
    (hbc : localeLt b c = true) : localeLt a c = true := by
  simp only [localeLt, Bool.or_eq_true, Bool.and_eq_true, decide_eq_true_eq] at hab hbc ⊢
  rcases hab with h1 | ⟨hp1, ht1⟩
  · rcases hbc with h2 | ⟨hp2, ht2⟩
    · exact Or.inl (lexLt_trans _ _ _ h1 h2)
    · exact Or.inl (hp2 ▸ h1)
  · rcases hbc with h2 | ⟨hp2, ht2⟩
    · exact Or.inl (hp1 ▸ h2)
    · exact Or.inr ⟨hp1.trans hp2, lexLt_trans _ _ _ ht1 ht2⟩

theorem mem_insertSorted {α : Type} (lt : α → α → Bool) (x a : α) (l : List α) :
    a ∈ insertSorted lt x l ↔ a = x ∨ a ∈ l := by
  induction l with
  | nil => simp [insertSorted]
  | cons y ys ih =>
    simp only [insertSorted]
    by_cases h : lt x y
    · simp [if_pos h]
    · simp only [if_neg h, List.mem_cons, ih]
      tauto

theorem mem_sortBy {α : Type} (lt : α → α → Bool) (a : α) (l : List α) :
    a ∈ sortBy lt l ↔ a ∈ l := by
  induction l with
  | nil => simp [sortBy]
  | cons x xs ih => simp [sortBy, mem_insertSorted, ih, List.mem_cons]

theorem pairwise_insertSorted {α : Type} (lt : α → α → Bool)
    (hasym : ∀ a b, lt a b = true → lt b a = false)
    (htrans : ∀ a b c, lt a b = true → lt b c = true → lt a c = true)
    (x : α) (l : List α) (h : l.Pairwise (fun a b => lt b a = false)) :
    (insertSorted lt x l).Pairwise (fun a b => lt b a = false) := by
  induction l with
  | nil => simp [insertSorted]
  | cons y ys ih =>
    rw [List.pairwise_cons] at h
    obtain ⟨hy, hys⟩ := h
    simp only [insertSorted]
    by_cases hlt : lt x y
    · rw [if_pos hlt]
      refine List.Pairwise.cons ?_ (List.Pairwise.cons hy hys)
      intro z hz
      rcases List.mem_cons.mp hz with rfl | hzys
      · exact hasym _ _ hlt
      · by_contra hc
        have hzx : lt z x = true := by
          cases hzz : lt z x with
          | false => exact absurd hzz hc
          | true => rfl
        have : lt z y = true := htrans _ _ _ hzx hlt
        rw [hy z hzys] at this
        exact absurd this (by simp)
    · rw [if_neg hlt]
      refine List.Pairwise.cons ?_ (ih hys)
      intro z hz
      rcases (mem_insertSorted lt x z ys).mp hz with rfl | hzys
      · exact Bool.eq_false_iff.mpr hlt
      · exact hy z hzys

theorem pairwise_sortBy {α : Type} (lt : α → α → Bool)
    (hasym : ∀ a b, lt a b = true → lt b a = false)
    (htrans : ∀ a b c, lt a b = true → lt b c = true → lt a c = true)
    (l : List α) : (sortBy lt l).Pairwise (fun a b => lt b a = false) := by
  induction l with
  | nil => simp [sortBy]
  | cons x xs ih => exact pairwise_insertSorted lt hasym htrans x _ ih

/-! ### Claim C8: module discovery -/

theorem moduleEntry_eq_some (w mr : String) (child : String → Option (List DirEntry))
    (ex : List String) (e : DirEntry) (m : ModuleInfo) :
    moduleEntry w mr child ex e = some m ↔
      e.kind = StatKind.dir ∧ ex.contains e.name = false ∧
        isModuleDirectory (child e.name) = true ∧
        m = { id := w ++ ":" ++ mr ++ ":" ++ e.name, name := e.name,
              path := w ++ "/" ++ mr ++ "/" ++ e.name } := by
  unfold moduleEntry
  by_cases h1 : e.kind = StatKind.dir
  · rw [if_neg (by simp [h1])]
    by_cases h2 : ex.contains e.name = true
    · rw [if_pos h2]
      constructor
      · intro h
        exact absurd h (by simp)
      · rintro ⟨-, hc, -⟩
        rw [h2] at hc
        exact absurd hc (by simp)
    · rw [if_neg h2]
      by_cases h3 : isModuleDirectory (child e.name) = true
      · rw [if_pos h3]
        constructor
        · intro h
          exact ⟨h1, Bool.eq_false_iff.mpr h2, h3, (Option.some.inj h).symm⟩
        · rintro ⟨-, -, -, rfl⟩
          rfl
      · rw [if_neg h3]
        constructor
        · intro h
          exact absurd h (by simp)
        · rintro ⟨-, -, hc, -⟩
          exact absurd hc h3
  · rw [if_pos (by simp [h1])]
    constructor
    · intro h
      exact absurd h (by simp)
    · rintro ⟨hc, -⟩
      exact absurd hc h1

/-- Counterexample to C8: with directories `B` and `a` both holding a
marker file, the code returns them in locale order `[a, B]`
(`localeCompare` sorts case-insensitively at the primary level), not in
the claimed case-sensitive code-point order `[B, a]`. -/
theorem c8_discover_modules_cex :
    (discoverModules "w" "mods" (some [⟨"B", .dir⟩, ⟨"a", .dir⟩])
        (fun _ => some [⟨"CMakeLists.txt", .file⟩]) []).map ModuleInfo.name = ["a", "B"] ∧
    (discoverModulesCodePointSpec "w" "mods" (some [⟨"B", .dir⟩, ⟨"a", .dir⟩])
        (fun _ => some [⟨"CMakeLists.txt", .file⟩]) []).map ModuleInfo.name = ["B", "a"] ∧
    discoverModules "w" "mods" (some [⟨"B", .dir⟩, ⟨"a", .dir⟩])
        (fun _ => some [⟨"CMakeLists.txt", .file⟩]) [] ≠
      discoverModulesCodePointSpec "w" "mods" (some [⟨"B", .dir⟩, ⟨"a", .dir⟩])
        (fun _ => some [⟨"CMakeLists.txt", .file⟩]) [] := by
  refine ⟨by decide, by decide, ?_⟩
  decide

/-- C8 amended: `discoverModules` returns exactly the root entries that
are directories, are not excluded, and contain a marker file (as
`ModuleInfo`s built from the entry name), sorted ascending by name in
the locale-collation order of `localeCompare` (case-insensitive at the
primary level) rather than in code-point order; an unreadable root
yields the empty list. -/
theorem c8_discover_modules_amended :
    (∀ (w mr : String) (child : String → Option (List DirEntry)) (ex : List String),
        discoverModules w mr none child ex = []) ∧
    (∀ (w mr : String) (entries : List DirEntry) (child : String → Option (List DirEntry))
        (ex : List String) (m : ModuleInfo),
        m ∈ discoverModules w mr (some entries) child ex ↔
          ∃ e ∈ entries, e.kind = StatKind.dir ∧ ex.contains e.name = false ∧
            isModuleDirectory (child e.name) = true ∧
            m = { id := w ++ ":" ++ mr ++ ":" ++ e.name, name := e.name,
                  path := w ++ "/" ++ mr ++ "/" ++ e.name }) ∧
    (∀ (w mr : String) (rootListing : Option (List DirEntry))
        (child : String → Option (List DirEntry)) (ex : List String),
        (discoverModules w mr rootListing child ex).Pairwise
          (fun a b => localeLt b.name a.name = false)) := by
  refine ⟨fun w mr child ex => rfl, ?_, ?_⟩
  · intro w mr entries child ex m
    simp only [discoverModules, mem_sortBy, List.mem_filterMap]
    constructor
    · rintro ⟨e, he, hsome⟩
      exact ⟨e, he, (moduleEntry_eq_some w mr child ex e m).mp hsome⟩
    · rintro ⟨e, he, hconds⟩
      exact ⟨e, he, (moduleEntry_eq_some w mr child ex e m).mpr hconds⟩
  · intro w mr rootListing child ex
    cases rootListing with
    | none => simp [discoverModules]
    | some entries =>
      exact pairwise_sortBy _
        (fun a b h => localeLt_asymm a.name b.name h)
        (fun a b c h1 h2 => localeLt_trans a.name b.name c.name h1 h2) _

/-! ### Claim C4: state-store runs invariant -/

theorem backfillRuns_lookup_preserved :
    ∀ (ts : List TargetDefinition) (runs : Obj RunResult) (k : String) (v : RunResult),
      runs.lookup k = some v → (backfillRuns ts runs).lookup k = some v := by
  intro ts
  induction ts with
  | nil =>
    intro runs k v h
    exact h
  | cons t rest ih =>
    intro runs k v h
    simp only [backfillRuns]
    cases hm : runs.lookup t.name with
    | some w => exact ih runs k v h
    | none =>
      refine ih _ k v ?_
      rw [Obj.lookup_set]
      by_cases hk : k = t.name
      · rw [hk] at h
        rw [hm] at h
        exact absurd h (by simp)
      · rw [if_neg hk]
        exact h

theorem backfillRuns_lookup_isSome :
    ∀ (ts : List TargetDefinition) (runs : Obj RunResult) (t : TargetDefinition),
      t ∈ ts → ((backfillRuns ts runs).lookup t.name).isSome = true := by
  intro ts
  induction ts with
  | nil =>
    intro runs t h
    exact absurd h (List.not_mem_nil t)
  | cons t0 rest ih =>
    intro runs t h
    rcases List.mem_cons.mp h with rfl | hrest
    · simp only [backfillRuns]
      cases hm : runs.lookup t.name with
      | some w =>
        rw [backfillRuns_lookup_preserved rest runs t.name w hm]
        rfl
      | none =>
        have hset : (runs.set t.name { status := .idle }).lookup t.name =
            some { status := .idle } := by
          rw [Obj.lookup_set, if_pos rfl]
        rw [backfillRuns_lookup_preserved rest _ t.name _ hset]
        rfl
    · simp only [backfillRuns]
      cases hm : runs.lookup t0.name with
      | some w => exact ih runs t hrest
      | none => exact ih _ t hrest

theorem fillIdleRuns_lookup_preserved :
    ∀ (ts : List TargetDefinition) (runs : Obj RunResult) (k : String),
      runs.lookup k = some { status := .idle } →
      (fillIdleRuns ts runs).lookup k = some { status := .idle } := by
  intro ts
  induction ts with
  | nil =>
    intro runs k h
    exact h
  | cons t rest ih =>
    intro runs k h
    simp only [fillIdleRuns]
    refine ih _ k ?_
    rw [Obj.lookup_set]
    by_cases hk : k = t.name
    · rw [if_pos hk]
    · rw [if_neg hk]
      exact h

theorem fillIdleRuns_lookup_mem :
    ∀ (ts : List TargetDefinition) (runs : Obj RunResult) (t : TargetDefinition),
      t ∈ ts → (fillIdleRuns ts runs).lookup t.name = some { status := .idle } := by
  intro ts
  induction ts with
  | nil =>
    intro runs t h
    exact absurd h (List.not_mem_nil t)
  | cons t0 rest ih =>
    intro runs t h
    rcases List.mem_cons.mp h with rfl | hrest
    · simp only [fillIdleRuns]
      refine fillIdleRuns_lookup_preserved rest _ t.name ?_
      rw [Obj.lookup_set, if_pos rfl]
    · exact ih _ t hrest

/-- Operations of the C4 claim on the state store. -/
inductive StoreOp
  | targetsOp (ts : List TargetDefinition)
  | modulesOp (ms : List ModuleInfo)

/-- Apply one store operation. -/
def applyStoreOp (s : StoreState) : StoreOp → StoreState
  | .targetsOp ts => s.setTargets ts
  | .modulesOp ms => s.setModules ms

/-- Every module has a runs entry for every current target. -/
def runsComplete (s : StoreState) : Prop :=
  ∀ ms ∈ s.modules, ∀ t ∈ s.targets, ((ms.runs.lookup t.name)).isSome = true

theorem runsComplete_applyStoreOp (s : StoreState) (op : StoreOp) :
    runsComplete (applyStoreOp s op) := by
  cases op with
  | targetsOp ts =>
    intro ms' hmem t ht
    simp only [applyStoreOp, StoreState.setTargets, List.mem_map] at hmem ht
    obtain ⟨ms, _, rfl⟩ := hmem
    exact backfillRuns_lookup_isSome ts ms.runs t ht
  | modulesOp mods =>
    intro ms' hmem t ht
    simp only [applyStoreOp, StoreState.setModules, List.mem_map] at hmem ht
    obtain ⟨m, _, rfl⟩ := hmem
    rw [show (freshRuns s.targets) = fillIdleRuns s.targets [] from rfl] at *
    rw [fillIdleRuns_lookup_mem s.targets [] t ht]
    rfl

theorem runsComplete_foldl :
    ∀ (ops : List StoreOp) (s : StoreState), runsComplete s →
      runsComplete (ops.foldl applyStoreOp s) := by
  intro ops
  induction ops with
  | nil =>
    intro s h
    exact h
  | cons op rest ih =>
    intro s _
    exact ih (applyStoreOp s op) (runsComplete_applyStoreOp s op)

/-- C4: starting from a fresh store, after any sequence of `setModules`
and `setTargets` calls every module has a runs entry (at least idle) for
every current target; `setTargets` replaces the target list and never
removes an existing runs entry (stale entries keep their value); and
`setModules` resets every module to fresh defaults (empty availability,
no generator, `needsConfigure` false, idle configure) and back-fills an
idle runs entry for every current target. -/
theorem c4_store_invariant :
    (∀ ops : List StoreOp, runsComplete (ops.foldl applyStoreOp StoreState.init)) ∧
    (∀ (s : StoreState) (ts : List TargetDefinition) (ms : ModuleState) (k : String)
        (v : RunResult), ms ∈ s.modules → ms.runs.lookup k = some v →
        ∃ ms' ∈ (s.setTargets ts).modules,
          ms'.module = ms.module ∧ ms'.runs.lookup k = some v) ∧
    (∀ (s : StoreState) (mods : List ModuleInfo) (ms' : ModuleState),
        ms' ∈ (s.setModules mods).modules →
        ms'.availability = [] ∧ ms'.generator = none ∧ ms'.needsConfigure = false ∧
          ms'.configure = { status := .idle } ∧
          ∀ t ∈ s.targets, ms'.runs.lookup t.name = some { status := .idle }) ∧
    (∀ (s : StoreState) (ts : List TargetDefinition), (s.setTargets ts).targets = ts) := by
  refine ⟨?_, ?_, ?_, fun s ts => rfl⟩
  · intro ops
    refine runsComplete_foldl ops StoreState.init ?_
    intro ms hmem
    exact absurd hmem (List.not_mem_nil ms)
  · intro s ts ms k v hmem h
    refine ⟨{ ms with runs := backfillRuns ts ms.runs }, ?_, rfl, ?_⟩
    · simp only [StoreState.setTargets, List.mem_map]
      exact ⟨ms, hmem, rfl⟩
    · exact backfillRuns_lookup_preserved ts ms.runs k v h
  · intro s mods ms' hmem
    simp only [StoreState.setModules, List.mem_map] at hmem
    obtain ⟨m, _, rfl⟩ := hmem
    exact ⟨rfl, rfl, rfl, rfl, fun t ht => fillIdleRuns_lookup_mem s.targets [] t ht⟩

/-- Witness for C4: a concrete store with one module holding a stale
entry, a `setTargets` that keeps it, and a `setModules` reset. -/
theorem c4_store_invariant_w :
    (∃ ms' ∈ ((StoreState.mk
          [⟨⟨"id1", "m1", "/m1"⟩, [], [("old", { status := RunStatus.failed })], none, false,
            { status := .idle }⟩] []).setTargets [⟨"all"⟩]).modules,
        ms'.module = (⟨"id1", "m1", "/m1"⟩ : ModuleInfo) ∧
          ms'.runs.lookup "old" = some { status := RunStatus.failed }) ∧
    runsComplete ([StoreOp.targetsOp [⟨"all"⟩], StoreOp.modulesOp [⟨"id1", "m1", "/m1"⟩]].foldl
      applyStoreOp StoreState.init) :=
  ⟨c4_store_invariant.2.1
      (StoreState.mk
        [⟨⟨"id1", "m1", "/m1"⟩, [], [("old", { status := RunStatus.failed })], none, false,
          { status := .idle }⟩] [])
      [⟨"all"⟩]
      ⟨⟨"id1", "m1", "/m1"⟩, [], [("old", { status := RunStatus.failed })], none, false,
        { status := .idle }⟩
      "old" { status := RunStatus.failed } (by simp) rfl,
   c4_store_invariant.1 [StoreOp.targetsOp [⟨"all"⟩], StoreOp.modulesOp [⟨"id1", "m1", "/m1"⟩]]⟩

/-! ### Claim C2: concurrency cap -/

theorem Obj.length_set_le {α : Type} (o : Obj α) (k : String) (v : α) :
    (o.set k v).length ≤ o.length + 1 := by
  rw [Obj.length_set]
  by_cases h : (o.lookup k).isSome <;> simp [h]

/-! #### Refined runner state exposing the task-start await

`TargetRunner.execute` suspends inside `executeInTerminal` at
`await vscode.tasks.executeTask(task)` and records the in-flight entry
only when that await resumes (`this.running.set(key, { kind: 'task',
execution })` comes after the await), while the silent branch records
its entry synchronously before its first await
(`this.running.set(key, { kind: 'silent' })`). The kick loop's guard
re-reads `this.running.size` between dispatches, so the deferred
terminal registration is observable: one synchronous burst can start
terminal tasks past the cap. This refinement carries the
started-but-not-yet-registered terminal tasks in `startingTasks`; the
coarser `RunnerState` model above identifies dispatch with
registration, which is sound for the claims that do not measure the
in-flight count against the cap. -/

/-- Runner state refined with the terminal tasks whose
`vscode.tasks.executeTask` promise has not yet resolved: started, but
not yet recorded in `running`. -/
structure AsyncRunnerState where
  maxParallel : Nat
  pending : List RunRequest := []
  running : Obj RunningKind := []
  startingTasks : List (String × RunRequest) := []
  taskNames : Obj String := []
  modulePaths : Obj String := []
  runStartedAt : Obj Nat := []
  autoCloseOnSuccess : Obj Bool := []
  taskOutput : Obj String := []
deriving DecidableEq, Repr

/-- The duplicate test of `enqueue` on the refined state: exactly as in
the source, it consults only the `running` map and the pending queue —
started-but-unregistered tasks are invisible to it. -/
def busyKeyAsync (s : AsyncRunnerState) (k : String) : Bool :=
  (s.running.lookup k).isSome || s.pending.any (fun i => keyOf i = k)

/-- Synchronous prefix of `TargetRunner.execute(request)` on the
refined state: bookkeeping maps are written and a silent request is
registered in `running` at once, while a terminal request only joins
`startingTasks` — its registration happens in `taskStartResolved` when
the task-start await resumes. -/
def dispatchAsync (now : Nat) (s : AsyncRunnerState) (r : RunRequest) : AsyncRunnerState :=
  let k := keyOf r
  let s1 :=
    { s with
      modulePaths := s.modulePaths.set k r.module.path
      runStartedAt := s.runStartedAt.set k now
      taskOutput := s.taskOutput.set k "" }
  if r.runInTerminal then
    { s1 with startingTasks := s1.startingTasks ++ [(k, r)] }
  else
    { s1 with running := s1.running.set k .silent }

/-- The `kick` while loop on the refined state, fuelled by the pending
queue length; the guard reads `running.length`, which terminal
dispatches do not bump. -/
def kickAsyncAux (now : Nat) : Nat → AsyncRunnerState → AsyncRunnerState × List RunUpdate
  | 0, s => (s, [])
  | fuel + 1, s =>
    if s.running.length < s.maxParallel then
      match s.pending with
      | [] => (s, [])
      | r :: rest =>
        let s1 := dispatchAsync now { s with pending := rest } r
        let p := kickAsyncAux now fuel s1
        (p.1, runningUpdate r :: p.2)
    else (s, [])

/-- `TargetRunner.kick()` on the refined state. -/
def AsyncRunnerState.kick (now : Nat) (s : AsyncRunnerState) :
    AsyncRunnerState × List RunUpdate :=
  kickAsyncAux now s.pending.length s

/-- `TargetRunner.enqueue(request)` on the refined state. -/
def AsyncRunnerState.enqueue (now : Nat) (s : AsyncRunnerState) (r : RunRequest) :
    AsyncRunnerState × List RunUpdate :=
  let k := keyOf r
  if busyKeyAsync s k then (s, [])
  else
    AsyncRunnerState.kick now
      { s with
        taskNames := s.taskNames.set k (r.module.name ++ ":" ++ r.target)
        autoCloseOnSuccess := s.autoCloseOnSuccess.set k r.autoCloseOnSuccess
        pending := s.pending ++ [r] }

/-- `TargetRunner.setMaxParallel(maxParallel)` on the refined state. -/
def AsyncRunnerState.setMaxParallel (now : Nat) (s : AsyncRunnerState) (n : Nat) :
    AsyncRunnerState × List RunUpdate :=
  AsyncRunnerState.kick now { s with maxParallel := n }

/-- Remove the first entry with the given key. -/
def eraseFirstKey : List (String × RunRequest) → String → List (String × RunRequest)
  | [], _ => []
  | e :: rest, k => if e.1 = k then rest else e :: eraseFirstKey rest k

/-- Resumption of the task-start await for key `k`: the source's
`this.running.set(key, { kind: 'task', execution })` after
`await vscode.tasks.executeTask` — the started task leaves
`startingTasks` and is registered in `running`, possibly pushing the
tracked count past the cap. -/
def AsyncRunnerState.taskStartResolved (s : AsyncRunnerState) (k : String) :
    AsyncRunnerState :=
  if s.startingTasks.any (fun e => e.1 = k) then
    { s with
      startingTasks := eraseFirstKey s.startingTasks k
      running := s.running.set k .task }
  else s

/-- `TargetRunner.handleTaskEnd(event)` on the refined state (same
classification as the coarse model). -/
def AsyncRunnerState.handleTaskEnd (now : Nat) (diagStatus : RunStatus)
    (s : AsyncRunnerState) (moduleId target : String) (exitCode : Option Int) :
    AsyncRunnerState × List RunUpdate :=
  let k := getKey moduleId target
  let s1 := { s with running := s.running.erase k }
  let output := (s1.taskOutput.lookup k).getD ""
  let status0 : RunStatus := if exitCode = some 0 then .success else .failed
  let status1 :=
    if status0 = .success ∧ (s1.modulePaths.lookup k).isSome then diagStatus else status0
  let status2 :=
    if status1 = .success ∧ output ≠ "" then resolveOutputStatus 0 output else status1
  let s2 :=
    { s1 with
      modulePaths := s1.modulePaths.erase k
      runStartedAt := s1.runStartedAt.erase k
      autoCloseOnSuccess := s1.autoCloseOnSuccess.erase k
      taskOutput := s1.taskOutput.erase k }
  let p := s2.kick now
  (p.1, { moduleId := moduleId, target := target, status := status2, exitCode := exitCode } :: p.2)

/-- Number of started, not yet completed executions: the registered
in-flight entries plus the terminal tasks whose registration is still
pending their task-start await. -/
def AsyncRunnerState.inFlightCount (s : AsyncRunnerState) : Nat :=
  s.running.length + s.startingTasks.length

theorem kickAsyncAux_running_le (now : Nat) :
    ∀ (fuel : Nat) (s : AsyncRunnerState),
      (kickAsyncAux now fuel s).1.running.length ≤ max s.running.length s.maxParallel := by
  intro fuel
  induction fuel with
  | zero =>
    intro s
    exact le_max_left _ _
  | succ n ih =>
    intro s
    simp only [kickAsyncAux]
    by_cases h : s.running.length < s.maxParallel
    · rw [if_pos h]
      cases s.pending with
      | nil => exact le_max_left _ _
      | cons r rest =>
        have hlen : (dispatchAsync now { s with pending := rest } r).running.length ≤
            s.maxParallel := by
          simp only [dispatchAsync]
          by_cases ht : r.runInTerminal
          · rw [if_pos ht]
            exact Nat.le_of_lt h
          · rw [if_neg ht]
            refine le_trans (Obj.length_set_le _ _ _) ?_
            omega
        refine le_trans (ih (dispatchAsync now { s with pending := rest } r)) ?_
        have hmp : (dispatchAsync now { s with pending := rest } r).maxParallel =
            s.maxParallel := by
          simp only [dispatchAsync]
          by_cases ht : r.runInTerminal
          · rw [if_pos ht]
          · rw [if_neg ht]
        rw [hmp, max_eq_right hlen]
        exact le_max_right _ _
    · rw [if_neg h]
      exact le_max_left _ _

theorem kickAsync_noop (now : Nat) (s : AsyncRunnerState)
    (h : s.maxParallel ≤ s.running.length) : s.kick now = (s, []) := by
  simp only [AsyncRunnerState.kick]
  cases hp : s.pending with
  | nil => rfl
  | cons r rest =>
    simp only [kickAsyncAux]
    rw [if_neg (by omega)]

theorem kickAsyncAux_running_lookup_mono (now : Nat) :
    ∀ (fuel : Nat) (s : AsyncRunnerState) (k : String),
      (s.running.lookup k).isSome = true →
      ((kickAsyncAux now fuel s).1.running.lookup k).isSome = true := by
  intro fuel
  induction fuel with
  | zero =>
    intro s k h
    exact h
  | succ n ih =>
    intro s k h
    simp only [kickAsyncAux]
    by_cases hc : s.running.length < s.maxParallel
    · rw [if_pos hc]
      cases s.pending with
      | nil => exact h
      | cons r rest =>
        refine ih _ k ?_
        simp only [dispatchAsync]
        by_cases ht : r.runInTerminal
        · rw [if_pos ht]
          exact h
        · rw [if_neg ht]
          exact Obj.lookup_set_isSome _ _ _ _ h
    · rw [if_neg hc]
      exact h

theorem kickAsyncAux_startingTasks_mono (now : Nat) :
    ∀ (fuel : Nat) (s : AsyncRunnerState) (e : String × RunRequest),
      e ∈ s.startingTasks → e ∈ (kickAsyncAux now fuel s).1.startingTasks := by
  intro fuel
  induction fuel with
  | zero =>
    intro s e h
    exact h
  | succ n ih =>
    intro s e h
    simp only [kickAsyncAux]
    by_cases hc : s.running.length < s.maxParallel
    · rw [if_pos hc]
      cases s.pending with
      | nil => exact h
      | cons r rest =>
        refine ih _ e ?_
        simp only [dispatchAsync]
        by_cases ht : r.runInTerminal
        · rw [if_pos ht]
          exact List.mem_append_left _ h
        · rw [if_neg ht]
          exact h
    · rw [if_neg hc]
      exact h

/-- Two terminal-attached requests enqueued at cap 1 (as `rerunFailed`
does for two failed targets): the kick burst starts both, because the
guard reads the `running` map and terminal registrations are deferred
past the task-start await. -/
def c2BurstState : AsyncRunnerState :=
  (((AsyncRunnerState.mk 1 [] [] [] [] [] [] [] []).enqueue 0
      { module := ⟨"w:m:a", "a", "/w/m/a"⟩, target := "all" }).1.enqueue 0
    { module := ⟨"w:m:b", "b", "/w/m/b"⟩, target := "all" }).1

/-- The burst state after both task-start awaits resolve: both tasks
are now registered in `running`, which holds two entries at cap 1. -/
def c2ResolvedState : AsyncRunnerState :=
  (c2BurstState.taskStartResolved "w:m:a:all").taskStartResolved "w:m:b:all"

/-- Two silent requests at cap 2, then the cap lowered to 1: the
registered in-flight count stays above the new cap. -/
def c2ShrinkState : AsyncRunnerState :=
  ((((AsyncRunnerState.mk 2 [] [] [] [] [] [] [] []).enqueue 0
        { module := ⟨"w:m:a", "a", "/w/m/a"⟩, target := "all", runInTerminal := false }).1.enqueue
      0 { module := ⟨"w:m:b", "b", "/w/m/b"⟩, target := "all",
          runInTerminal := false }).1.setMaxParallel 0 1).1

/-- Counterexample to C2: (a) with cap 1, a synchronous enqueue burst of
two terminal-attached requests starts both — two executions are in
flight above the cap with no cap change involved, because the dispatch
guard cannot see started-but-unregistered terminal tasks; (b) once both
task-start awaits resolve, even the tracked `running` count is 2 at cap
1; (c) lowering the cap below the registered in-flight count likewise
leaves it above the cap. -/
theorem c2_cap_cex :
    (c2BurstState.maxParallel = 1 ∧ c2BurstState.inFlightCount = 2 ∧
      ¬(c2BurstState.inFlightCount ≤ c2BurstState.maxParallel)) ∧
    (c2ResolvedState.running.length = 2 ∧
      ¬(c2ResolvedState.running.length ≤ c2ResolvedState.maxParallel)) ∧
    (c2ShrinkState.running.length = 2 ∧ c2ShrinkState.maxParallel = 1 ∧
      ¬(c2ShrinkState.running.length ≤ c2ShrinkState.maxParallel)) := by
  refine ⟨⟨by decide, by decide, by decide⟩, ⟨by decide, by decide⟩, by decide, by decide, ?_⟩
  decide

/-- C2 amended: the cap does not bound the in-flight executions at every
instant — a synchronous dispatch burst starts terminal-attached tasks
past the cap (their registration is deferred behind the task-start
await), and lowering the cap below the in-flight count leaves it above
the cap until completions drain it. What holds instead: the dispatch
loop pops a pending request only while the tracked in-flight count is
below the cap (kick is a no-op at or above it); that tracked count is
bumped during dispatch only by silent-mode registrations, so enqueue
and completion never push it over the cap themselves; and
`setMaxParallel` never terminates or removes any started execution,
registered or still starting. -/
theorem c2_cap_amended :
    (∀ (now : Nat) (s : AsyncRunnerState), s.maxParallel ≤ s.running.length →
        s.kick now = (s, [])) ∧
    (∀ (now : Nat) (s : AsyncRunnerState) (r : RunRequest),
        s.running.length ≤ s.maxParallel →
        (s.enqueue now r).1.running.length ≤ s.maxParallel) ∧
    (∀ (now : Nat) (diagStatus : RunStatus) (s : AsyncRunnerState)
        (moduleId target : String) (exitCode : Option Int),
        s.running.length ≤ s.maxParallel →
        (AsyncRunnerState.handleTaskEnd now diagStatus s moduleId target
            exitCode).1.running.length ≤ s.maxParallel) ∧
    (∀ (now n : Nat) (s : AsyncRunnerState) (k : String),
        (s.running.lookup k).isSome = true →
        ((s.setMaxParallel now n).1.running.lookup k).isSome = true) ∧
    (∀ (now n : Nat) (s : AsyncRunnerState) (e : String × RunRequest),
        e ∈ s.startingTasks → e ∈ (s.setMaxParallel now n).1.startingTasks) := by
  refine ⟨kickAsync_noop, ?_, ?_, ?_, ?_⟩
  · intro now s r h
    simp only [AsyncRunnerState.enqueue]
    by_cases hb : busyKeyAsync s (keyOf r) = true
    · rw [if_pos hb]
      exact h
    · rw [if_neg hb]
      refine le_trans (kickAsyncAux_running_le now _ _) ?_
      exact max_le h le_rfl
  · intro now diagStatus s moduleId target exitCode h
    simp only [AsyncRunnerState.handleTaskEnd, AsyncRunnerState.kick]
    refine le_trans (kickAsyncAux_running_le now _ _) ?_
    refine max_le ?_ le_rfl
    exact le_trans (Obj.length_erase_le _ _) h
  · intro now n s k h
    simp only [AsyncRunnerState.setMaxParallel, AsyncRunnerState.kick]
    exact kickAsyncAux_running_lookup_mono now _ _ k h
  · intro now n s e h
    simp only [AsyncRunnerState.setMaxParallel, AsyncRunnerState.kick]
    exact kickAsyncAux_startingTasks_mono now _ _ e h

/-- Witness for the amended C2 at concrete runners: a saturated kick is
a no-op, and a silent enqueue respects the cap. -/
theorem c2_cap_amended_w :
    (AsyncRunnerState.mk 1 [{ module := ⟨"w:m:b", "b", "/w/m/b"⟩, target := "all" }]
        [("w:m:a:all", .task)] [] [] [] [] [] []).kick 3 =
      (AsyncRunnerState.mk 1 [{ module := ⟨"w:m:b", "b", "/w/m/b"⟩, target := "all" }]
        [("w:m:a:all", .task)] [] [] [] [] [] [], []) ∧
    ((AsyncRunnerState.mk 2 [] [("w:m:a:all", .silent)] [] [] [] [] [] []).enqueue 3
        { module := ⟨"w:m:b", "b", "/w/m/b"⟩, target := "all",
          runInTerminal := false }).1.running.length ≤ 2 :=
  ⟨c2_cap_amended.1 3
      (AsyncRunnerState.mk 1 [{ module := ⟨"w:m:b", "b", "/w/m/b"⟩, target := "all" }]
        [("w:m:a:all", .task)] [] [] [] [] [] []) (by decide),
   c2_cap_amended.2.1 3 (AsyncRunnerState.mk 2 [] [("w:m:a:all", .silent)] [] [] [] [] [] [])
      { module := ⟨"w:m:b", "b", "/w/m/b"⟩, target := "all", runInTerminal := false }
      (by decide)⟩

/-! ### Claim C10: availability gating of the enqueue path -/

/-- C10: a run request entering through the controller is gated on
availability — for a module id unknown to the store, or a (module,
target) whose availability flag is not true, `enqueueRun` leaves the
whole system (store and scheduler) unchanged, and `enqueueRunById` is
likewise a no-op for an unknown module id; hence only pairs currently
detected as available are ever handed to the scheduler through this
path. -/
theorem c10_availability_gate :
    (∀ (now cpuCount : Nat) (settings : RunnerSettings) (opts : EnqueueOpts) (sys : Sys)
        (m : ModuleInfo) (target : String),
        (∀ ms, sys.store.getModuleState m.id = some ms →
          (ms.availability.lookup target).getD false = false) →
        enqueueRun now cpuCount settings opts sys m target = sys) ∧
    (∀ (now cpuCount : Nat) (settings : RunnerSettings) (sys : Sys)
        (moduleId target : String),
        sys.store.modules.find? (fun st => st.module.id = moduleId) = none →
        enqueueRunById now cpuCount settings sys moduleId target = sys) := by
  constructor
  · intro now cpuCount settings opts sys m target h
    simp only [enqueueRun]
    cases hm : sys.store.getModuleState m.id with
    | none => rfl
    | some ms =>
      show (if (ms.availability.lookup target).getD false = false then sys else _) = sys
      rw [if_pos (h ms hm)]
  · intro now cpuCount settings sys moduleId target h
    simp only [enqueueRunById]
    rw [h]

/-- Witness for C10: no-op on an empty system for an unknown module. -/
theorem c10_availability_gate_w :
    enqueueRun 0 4 ⟨.auto, .auto, 4⟩ {} ⟨⟨[], []⟩, RunnerState.mk 4 [] [] [] [] [] [] []⟩
        ⟨"id1", "m1", "/m1"⟩ "all" =
      ⟨⟨[], []⟩, RunnerState.mk 4 [] [] [] [] [] [] []⟩ ∧
    enqueueRunById 0 4 ⟨.auto, .auto, 4⟩ ⟨⟨[], []⟩, RunnerState.mk 4 [] [] [] [] [] [] []⟩
        "id1" "all" =
      ⟨⟨[], []⟩, RunnerState.mk 4 [] [] [] [] [] [] []⟩ :=
  ⟨c10_availability_gate.1 0 4 ⟨.auto, .auto, 4⟩ {}
      ⟨⟨[], []⟩, RunnerState.mk 4 [] [] [] [] [] [] []⟩ ⟨"id1", "m1", "/m1"⟩ "all"
      (fun ms hm => by simp [StoreState.getModuleState] at hm),
   c10_availability_gate.2 0 4 ⟨.auto, .auto, 4⟩
      ⟨⟨[], []⟩, RunnerState.mk 4 [] [] [] [] [] [] []⟩ "id1" "all" rfl⟩

/-! ### Claim C1: duplicate-free enqueue and rerunFailed idempotence -/

theorem enqueue_noop (now : Nat) (s : RunnerState) (r : RunRequest)
    (h : busyKey s (keyOf r) = true) : s.enqueue now r = (s, []) := by
  simp only [RunnerState.enqueue]
  rw [if_pos h]

theorem kickAux_busy_mono (now : Nat) :
    ∀ (fuel : Nat) (s : RunnerState) (k : String),
      busyKey s k = true → busyKey (kickAux now fuel s).1 k = true := by
  intro fuel
  induction fuel with
  | zero =>
    intro s k h
    exact h
  | succ n ih =>
    intro s k h
    simp only [kickAux]
    by_cases hc : s.running.length < s.maxParallel
    · rw [if_pos hc]
      cases hp : s.pending with
      | nil => exact h
      | cons r rest =>
        refine ih _ k ?_
        simp only [busyKey, Bool.or_eq_true] at h
        simp only [busyKey, dispatch, Bool.or_eq_true]
        rcases h with hr | hpend
        · exact Or.inl (Obj.lookup_set_isSome _ _ _ _ hr)
        · rw [hp] at hpend
          simp only [List.any_cons, Bool.or_eq_true] at hpend
          rcases hpend with hk | hrest
          · refine Or.inl ?_
            have hkk : keyOf r = k := of_decide_eq_true hk
            rw [← hkk, Obj.lookup_set, if_pos rfl]
            rfl
          · exact Or.inr hrest
    · rw [if_neg hc]
      exact h

theorem enqueue_busy_self (now : Nat) (s : RunnerState) (r : RunRequest) :
    busyKey (s.enqueue now r).1 (keyOf r) = true := by
  simp only [RunnerState.enqueue]
  by_cases hb : busyKey s (keyOf r) = true
  · rw [if_pos hb]
    exact hb
  · rw [if_neg hb]
    refine kickAux_busy_mono now _ _ _ ?_
    simp only [busyKey, Bool.or_eq_true]
    refine Or.inr ?_
    simp only [List.any_append, List.any_cons, List.any_nil, Bool.or_eq_true]
    exact Or.inr (Or.inl (by simp))

theorem enqueue_busy_mono (now : Nat) (s : RunnerState) (r : RunRequest) (k : String)
    (h : busyKey s k = true) : busyKey (s.enqueue now r).1 k = true := by
  simp only [RunnerState.enqueue]
  by_cases hb : busyKey s (keyOf r) = true
  · rw [if_pos hb]
    exact h
  · rw [if_neg hb]
    refine kickAux_busy_mono now _ _ _ ?_
    simp only [busyKey, Bool.or_eq_true] at h ⊢
    rcases h with hr | hpend
    · exact Or.inl hr
    · refine Or.inr ?_
      simp only [List.any_append, Bool.or_eq_true]
      exact Or.inl hpend

theorem kickAux_updates_running (now : Nat) :
    ∀ (fuel : Nat) (s : RunnerState) (u : RunUpdate),
      u ∈ (kickAux now fuel s).2 → u.status = .running := by
  intro fuel
  induction fuel with
  | zero =>
    intro s u h
    exact absurd h (List.not_mem_nil u)
  | succ n ih =>
    intro s u h
    simp only [kickAux] at h
    by_cases hc : s.running.length < s.maxParallel
    · rw [if_pos hc] at h
      cases hp : s.pending with
      | nil =>
        rw [hp] at h
        exact absurd h (List.not_mem_nil u)
      | cons r rest =>
        rw [hp] at h
        rcases List.mem_cons.mp h with rfl | htail
        · rfl
        · exact ih _ u htail
    · rw [if_neg hc] at h
      exact absurd h (List.not_mem_nil u)

theorem enqueue_updates_running (now : Nat) (s : RunnerState) (r : RunRequest) (u : RunUpdate)
    (h : u ∈ (s.enqueue now r).2) : u.status = .running := by
  simp only [RunnerState.enqueue] at h
  by_cases hb : busyKey s (keyOf r) = true
  · rw [if_pos hb] at h
    exact absurd h (List.not_mem_nil u)
  · rw [if_neg hb] at h
    exact kickAux_updates_running now _ _ u h

/-- Fields of a module state that the enqueue gate and request
construction read: module identity, availability, generator. -/
def moduleSkel (ms : ModuleState) : ModuleInfo × Obj Bool × Option CMakeGenerator :=
  (ms.module, ms.availability, ms.generator)

theorem find?_patchFirst_skel {α β : Type} (p q : α → Bool) (f : α → α) (sk : α → β)
    (hq : ∀ a, q (f a) = q a) (hs : ∀ a, sk (f a) = sk a) :
    ∀ l : List α, ((patchFirst p f l).find? q).map sk = (l.find? q).map sk := by
  intro l
  induction l with
  | nil => rfl
  | cons x xs ih =>
    simp only [patchFirst]
    by_cases hp : p x
    · rw [if_pos hp]
      by_cases hqx : q x = true
      · rw [List.find?_cons_of_pos _ (by rw [hq]; exact hqx), List.find?_cons_of_pos _ hqx]
        simp [hs]
      · rw [List.find?_cons_of_neg _ (by rw [hq]; exact hqx),
          List.find?_cons_of_neg _ hqx]
    · rw [if_neg hp]
      by_cases hqx : q x = true
      · rw [List.find?_cons_of_pos _ hqx, List.find?_cons_of_pos _ hqx]
      · rw [List.find?_cons_of_neg _ hqx, List.find?_cons_of_neg _ hqx]
        exact ih

theorem updateRun_skel (st : StoreState) (moduleId targetName : String) (p : RunPatch)
    (j : String) :
    (((st.updateRun moduleId targetName p).getModuleState j).map moduleSkel) =
      ((st.getModuleState j).map moduleSkel) := by
  simp only [StoreState.updateRun, StoreState.getModuleState]
  exact find?_patchFirst_skel (fun st => st.module.id = moduleId)
    (fun st => st.module.id = j)
    (fun ms =>
      { ms with
        runs := ms.runs.set targetName
          (mergeRun ((ms.runs.lookup targetName).getD { status := .idle }) p) })
    moduleSkel (fun a => rfl) (fun a => rfl) st.modules

theorem failedPairs_cons (m : ModuleInfo) (k0 : String) (v0 : RunResult)
    (rest : Obj RunResult) :
    failedPairs m ((k0, v0) :: rest) =
      if v0.status = .failed then (m, k0) :: failedPairs m rest else failedPairs m rest := by
  by_cases hs : v0.status = .failed
  · rw [if_pos hs]
    exact List.filterMap_cons_some (by rw [if_pos hs])
  · rw [if_neg hs]
    exact List.filterMap_cons_none (by rw [if_neg hs])

theorem failedPairs_set_subset (m : ModuleInfo) (t : String) (v : RunResult)
    (hv : v.status ≠ .failed) :
    ∀ (runs : Obj RunResult) (pr : ModuleInfo × String),
      pr ∈ failedPairs m (runs.set t v) → pr ∈ failedPairs m runs := by
  intro runs
  induction runs with
  | nil =>
    intro pr h
    simp only [Obj.set, failedPairs_cons, if_neg hv] at h
    exact absurd h (List.not_mem_nil pr)
  | cons e rest ih =>
    obtain ⟨k0, v0⟩ := e
    intro pr h
    by_cases hk : k0 = t
    · rw [show Obj.set ((k0, v0) :: rest) t v = (t, v) :: rest from by
        simp [Obj.set, hk]] at h
      rw [failedPairs_cons, if_neg hv] at h
      rw [failedPairs_cons]
      by_cases hs : v0.status = .failed
      · rw [if_pos hs]
        exact List.mem_cons_of_mem _ h
      · rw [if_neg hs]
        exact h
    · rw [show Obj.set ((k0, v0) :: rest) t v = (k0, v0) :: Obj.set rest t v from by
        simp [Obj.set, hk]] at h
      rw [failedPairs_cons] at h
      rw [failedPairs_cons]
      by_cases hs : v0.status = .failed
      · rw [if_pos hs] at h ⊢
        rcases List.mem_cons.mp h with rfl | htail
        · exact List.mem_cons_self _ _
        · exact List.mem_cons_of_mem _ (ih pr htail)
      · rw [if_neg hs] at h ⊢
        exact ih pr h

theorem mergeRun_status_running (old : RunResult) (p : RunPatch)
    (hp : p.status = some .running) : (mergeRun old p).status = .running := by
  simp [mergeRun, hp]

theorem flatMap_failed_patchFirst (pred : ModuleState → Bool) (t : String) (p : RunPatch)
    (hp : p.status = some .running) :
    ∀ (l : List ModuleState) (pr : ModuleInfo × String),
      pr ∈ (patchFirst pred
          (fun ms =>
            { ms with
              runs := ms.runs.set t
                (mergeRun ((ms.runs.lookup t).getD { status := .idle }) p) }) l).flatMap
          (fun ms => failedPairs ms.module ms.runs) →
      pr ∈ l.flatMap (fun ms => failedPairs ms.module ms.runs) := by
  intro l
  induction l with
  | nil =>
    intro pr h
    simp only [patchFirst, List.flatMap_nil] at h
    exact absurd h (List.not_mem_nil pr)
  | cons x xs ih =>
    intro pr h
    by_cases hx : pred x
    · simp only [patchFirst, if_pos hx, List.flatMap_cons] at h
      simp only [List.flatMap_cons]
      rcases List.mem_append.mp h with hhead | htail
      · refine List.mem_append.mpr (Or.inl ?_)
        refine failedPairs_set_subset x.module t _ ?_ x.runs pr hhead
        rw [mergeRun_status_running _ p hp]
        intro hcontra
        exact absurd hcontra (by simp)
      · exact List.mem_append.mpr (Or.inr htail)
    · simp only [patchFirst, if_neg hx, List.flatMap_cons] at h
      simp only [List.flatMap_cons]
      rcases List.mem_append.mp h with hhead | htail
      · exact List.mem_append.mpr (Or.inl hhead)
      · exact List.mem_append.mpr (Or.inr (ih pr htail))

theorem applyUpdate_skel (now : Nat) (st : StoreState) (u : RunUpdate) (j : String) :
    (((applyUpdate now st u).getModuleState j).map moduleSkel) =
      ((st.getModuleState j).map moduleSkel) := by
  simp only [applyUpdate]
  by_cases h : u.status = .running
  · rw [if_pos h]
    exact updateRun_skel st u.moduleId u.target _ j
  · rw [if_neg h]
    exact updateRun_skel st u.moduleId u.target _ j

theorem applyUpdate_failed_subset (now : Nat) (st : StoreState) (u : RunUpdate)
    (hu : u.status = .running) (pr : ModuleInfo × String)
    (h : pr ∈ (applyUpdate now st u).getFailedTargets) : pr ∈ st.getFailedTargets := by
  simp only [applyUpdate, if_pos hu] at h
  simp only [StoreState.updateRun, StoreState.getFailedTargets] at h
  exact flatMap_failed_patchFirst _ u.target _ rfl st.modules pr h

theorem foldl_applyUpdate_skel (now : Nat) :
    ∀ (ups : List RunUpdate) (st : StoreState) (j : String),
      (((List.foldl (applyUpdate now) st ups).getModuleState j).map moduleSkel) =
        ((st.getModuleState j).map moduleSkel) := by
  intro ups
  induction ups with
  | nil =>
    intro st j
    rfl
  | cons u rest ih =>
    intro st j
    simp only [List.foldl_cons]
    rw [ih (applyUpdate now st u) j, applyUpdate_skel]

theorem foldl_applyUpdate_failed_subset (now : Nat) :
    ∀ (ups : List RunUpdate) (st : StoreState) (pr : ModuleInfo × String),
      (∀ u ∈ ups, u.status = .running) →
      pr ∈ (List.foldl (applyUpdate now) st ups).getFailedTargets →
      pr ∈ st.getFailedTargets := by
  intro ups
  induction ups with
  | nil =>
    intro st pr _ h
    exact h
  | cons u rest ih =>
    intro st pr hups h
    simp only [List.foldl_cons] at h
    refine applyUpdate_failed_subset now st u (hups u (List.mem_cons_self u rest)) pr ?_
    exact ih (applyUpdate now st u) pr (fun w hw => hups w (List.mem_cons_of_mem u hw)) h

/-- The controller's enqueue gate as a predicate: the module is known
and the availability flag for the target is true. -/
def gatePass (st : StoreState) (moduleId target : String) : Bool :=
  match st.getModuleState moduleId with
  | none => false
  | some ms => (ms.availability.lookup target).getD false

theorem gatePass_eq_of_skel (st1 st2 : StoreState) (moduleId target : String)
    (h : ((st1.getModuleState moduleId).map moduleSkel) =
      ((st2.getModuleState moduleId).map moduleSkel)) :
    gatePass st1 moduleId target = gatePass st2 moduleId target := by
  unfold gatePass
  cases h1 : st1.getModuleState moduleId with
  | none =>
    cases h2 : st2.getModuleState moduleId with
    | none => rfl
    | some b =>
      rw [h1, h2] at h
      exact absurd h (by simp)
  | some a =>
    cases h2 : st2.getModuleState moduleId with
    | none =>
      rw [h1, h2] at h
      exact absurd h (by simp)
    | some b =>
      rw [h1, h2] at h
      have hav := congrArg (fun q => q.2.1) (Option.some.inj h)
      simp only [moduleSkel] at hav
      show (a.availability.lookup target).getD false = (b.availability.lookup target).getD false
      rw [hav]

theorem enqueueRun_gate_fail (now cpuCount : Nat) (settings : RunnerSettings)
    (opts : EnqueueOpts) (sys : Sys) (m : ModuleInfo) (target : String)
    (h : gatePass sys.store m.id target = false) :
    enqueueRun now cpuCount settings opts sys m target = sys := by
  simp only [enqueueRun]
  cases hm : sys.store.getModuleState m.id with
  | none => rfl
  | some ms =>
    unfold gatePass at h
    rw [hm] at h
    show (if (ms.availability.lookup target).getD false = false then sys else _) = sys
    rw [if_pos h]

theorem enqueueRun_busy (now cpuCount : Nat) (settings : RunnerSettings)
    (opts : EnqueueOpts) (sys : Sys) (m : ModuleInfo) (target : String)
    (hb : busyKey sys.runner (getKey m.id target) = true) :
    enqueueRun now cpuCount settings opts sys m target = sys := by
  simp only [enqueueRun]
  cases hm : sys.store.getModuleState m.id with
  | none => rfl
  | some ms =>
    by_cases hav : (ms.availability.lookup target).getD false = false
    · show (if (ms.availability.lookup target).getD false = false then sys else _) = sys
      rw [if_pos hav]
    · show (if (ms.availability.lookup target).getD false = false then sys else _) = sys
      rw [if_neg hav]
      rw [enqueue_noop now sys.runner (buildRequest cpuCount settings opts ms m target) hb]
      rfl

theorem enqueueRun_skel (now cpuCount : Nat) (settings : RunnerSettings)
    (opts : EnqueueOpts) (sys : Sys) (m : ModuleInfo) (target : String) (j : String) :
    (((enqueueRun now cpuCount settings opts sys m target).store.getModuleState j).map
        moduleSkel) =
      ((sys.store.getModuleState j).map moduleSkel) := by
  simp only [enqueueRun]
  cases hm : sys.store.getModuleState m.id with
  | none => rfl
  | some ms =>
    show (((if (ms.availability.lookup target).getD false = false then sys
        else _ : Sys).store.getModuleState j).map moduleSkel) = _
    by_cases hav : (ms.availability.lookup target).getD false = false
    · rw [if_pos hav]
    · rw [if_neg hav]
      exact foldl_applyUpdate_skel now _ sys.store j

theorem enqueueRun_busy_mono (now cpuCount : Nat) (settings : RunnerSettings)
    (opts : EnqueueOpts) (sys : Sys) (m : ModuleInfo) (target : String) (k : String)
    (h : busyKey sys.runner k = true) :
    busyKey (enqueueRun now cpuCount settings opts sys m target).runner k = true := by
  simp only [enqueueRun]
  cases hm : sys.store.getModuleState m.id with
  | none => exact h
  | some ms =>
    show busyKey (if (ms.availability.lookup target).getD false = false then sys
        else _ : Sys).runner k = true
    by_cases hav : (ms.availability.lookup target).getD false = false
    · rw [if_pos hav]
      exact h
    · rw [if_neg hav]
      exact enqueue_busy_mono now sys.runner _ k h

theorem enqueueRun_busy_self (now cpuCount : Nat) (settings : RunnerSettings)
    (opts : EnqueueOpts) (sys : Sys) (m : ModuleInfo) (target : String)
    (hg : gatePass sys.store m.id target = true) :
    busyKey (enqueueRun now cpuCount settings opts sys m target).runner
      (getKey m.id target) = true := by
  unfold gatePass at hg
  simp only [enqueueRun]
  cases hm : sys.store.getModuleState m.id with
  | none =>
    rw [hm] at hg
    exact absurd hg (by simp)
  | some ms =>
    rw [hm] at hg
    have hg' : (ms.availability.lookup target).getD false = true := hg
    show busyKey (if (ms.availability.lookup target).getD false = false then sys
        else _ : Sys).runner (getKey m.id target) = true
    rw [if_neg (by rw [hg']; simp)]
    exact enqueue_busy_self now sys.runner (buildRequest cpuCount settings opts ms m target)

theorem enqueueRun_failed_subset (now cpuCount : Nat) (settings : RunnerSettings)
    (opts : EnqueueOpts) (sys : Sys) (m : ModuleInfo) (target : String)
    (pr : ModuleInfo × String)
    (h : pr ∈ (enqueueRun now cpuCount settings opts sys m target).store.getFailedTargets) :
    pr ∈ sys.store.getFailedTargets := by
  revert h
  simp only [enqueueRun]
  cases hm : sys.store.getModuleState m.id with
  | none => exact id
  | some ms =>
    show pr ∈ ((if (ms.availability.lookup target).getD false = false then sys
        else _ : Sys).store.getFailedTargets) → _
    by_cases hav : (ms.availability.lookup target).getD false = false
    · rw [if_pos hav]
      exact id
    · rw [if_neg hav]
      intro h
      exact foldl_applyUpdate_failed_subset now _ sys.store pr
        (fun u hu => enqueue_updates_running now sys.runner _ u hu) h

theorem foldStep_skel (now cpuCount : Nat) (settings : RunnerSettings) :
    ∀ (L : List (ModuleInfo × String)) (sys : Sys) (j : String),
      (((L.foldl (rerunStep now cpuCount settings) sys).store.getModuleState j).map
          moduleSkel) =
        ((sys.store.getModuleState j).map moduleSkel) := by
  intro L
  induction L with
  | nil =>
    intro sys j
    rfl
  | cons pr rest ih =>
    intro sys j
    simp only [List.foldl_cons]
    rw [ih (rerunStep now cpuCount settings sys pr) j]
    exact enqueueRun_skel now cpuCount settings {} sys pr.1 pr.2 j

theorem foldStep_busy_mono (now cpuCount : Nat) (settings : RunnerSettings) :
    ∀ (L : List (ModuleInfo × String)) (sys : Sys) (k : String),
      busyKey sys.runner k = true →
      busyKey (L.foldl (rerunStep now cpuCount settings) sys).runner k = true := by
  intro L
  induction L with
  | nil =>
    intro sys k h
    exact h
  | cons pr rest ih =>
    intro sys k h
    simp only [List.foldl_cons]
    exact ih _ k (enqueueRun_busy_mono now cpuCount settings {} sys pr.1 pr.2 k h)

theorem foldStep_failed_subset (now cpuCount : Nat) (settings : RunnerSettings) :
    ∀ (L : List (ModuleInfo × String)) (sys : Sys) (pr : ModuleInfo × String),
      pr ∈ (L.foldl (rerunStep now cpuCount settings) sys).store.getFailedTargets →
      pr ∈ sys.store.getFailedTargets := by
  intro L
  induction L with
  | nil =>
    intro sys pr h
    exact h
  | cons q rest ih =>
    intro sys pr h
    simp only [List.foldl_cons] at h
    exact enqueueRun_failed_subset now cpuCount settings {} sys q.1 q.2 pr (ih _ pr h)

theorem foldStep_busy_of_mem (now cpuCount : Nat) (settings : RunnerSettings) :
    ∀ (L : List (ModuleInfo × String)) (sys : Sys) (pr : ModuleInfo × String),
      pr ∈ L →
      gatePass (L.foldl (rerunStep now cpuCount settings) sys).store pr.1.id pr.2 = true →
      busyKey (L.foldl (rerunStep now cpuCount settings) sys).runner
        (getKey pr.1.id pr.2) = true := by
  intro L
  induction L with
  | nil =>
    intro sys pr h _
    exact absurd h (List.not_mem_nil pr)
  | cons q rest ih =>
    intro sys pr hmem hg
    simp only [List.foldl_cons] at hg ⊢
    rcases List.mem_cons.mp hmem with rfl | hrest
    · have hg0 : gatePass sys.store pr.1.id pr.2 = true := by
        rw [← hg]
        refine (gatePass_eq_of_skel _ _ pr.1.id pr.2 ?_).symm
        rw [foldStep_skel now cpuCount settings rest _ pr.1.id]
        exact enqueueRun_skel now cpuCount settings {} sys pr.1 pr.2 pr.1.id
      refine foldStep_busy_mono now cpuCount settings rest _ _ ?_
      exact enqueueRun_busy_self now cpuCount settings {} sys pr.1 pr.2 hg0
    · exact ih _ pr hrest hg

theorem foldl_id_of_mem_id {α β : Type} (f : β → α → β) (s : β) (L : List α)
    (h : ∀ x ∈ L, f s x = s) : L.foldl f s = s := by
  induction L with
  | nil => rfl
  | cons x xs ih =>
    simp only [List.foldl_cons, h x (List.mem_cons_self x xs)]
    exact ih (fun y hy => h y (List.mem_cons_of_mem x hy))

/-- C1: a duplicate enqueue for a key already queued or in flight leaves
the scheduler entirely unchanged and fires no event; consequently a
second `rerunFailed` issued before any completion is a no-op on the
whole system — each failed (module, target) pair is enqueued exactly
once by the first call. -/
theorem c1_enqueue_idempotent :
    (∀ (now : Nat) (s : RunnerState) (r : RunRequest),
        busyKey s (keyOf r) = true → s.enqueue now r = (s, [])) ∧
    (∀ (now2 now1 cpuCount : Nat) (settings : RunnerSettings) (sys : Sys),
        rerunFailed now2 cpuCount settings (rerunFailed now1 cpuCount settings sys) =
          rerunFailed now1 cpuCount settings sys) := by
  constructor
  · exact enqueue_noop
  · intro now2 now1 cpuCount settings sys
    show (List.foldl (rerunStep now2 cpuCount settings)
        (rerunFailed now1 cpuCount settings sys)
        ((rerunFailed now1 cpuCount settings sys).store.getFailedTargets)) =
      rerunFailed now1 cpuCount settings sys
    refine foldl_id_of_mem_id _ _ _ ?_
    intro pr hpr
    by_cases hg : gatePass (rerunFailed now1 cpuCount settings sys).store pr.1.id pr.2 = true
    · have hprL : pr ∈ sys.store.getFailedTargets :=
        foldStep_failed_subset now1 cpuCount settings sys.store.getFailedTargets sys pr hpr
      have hbusy : busyKey (rerunFailed now1 cpuCount settings sys).runner
          (getKey pr.1.id pr.2) = true :=
        foldStep_busy_of_mem now1 cpuCount settings sys.store.getFailedTargets sys pr hprL hg
      exact enqueueRun_busy now2 cpuCount settings {} _ pr.1 pr.2 hbusy
    · exact enqueueRun_gate_fail now2 cpuCount settings {} _ pr.1 pr.2
        (Bool.eq_false_iff.mpr hg)

/-- Witness for C1: a concrete duplicate enqueue is dropped, and a
concrete `rerunFailed` is idempotent. -/
theorem c1_enqueue_idempotent_w :
    ((RunnerState.mk 2 [] [("w:m:a:all", .task)] [] [] [] [] []).enqueue 5
        { module := ⟨"w:m:a", "a", "/w/m/a"⟩, target := "all" }) =
      (RunnerState.mk 2 [] [("w:m:a:all", .task)] [] [] [] [] [], []) ∧
    rerunFailed 9 4 ⟨.auto, .auto, 4⟩
        (rerunFailed 3 4 ⟨.auto, .auto, 4⟩
          ⟨⟨[⟨⟨"id1", "m1", "/m1"⟩, [("all", true)],
              [("all", { status := RunStatus.failed })], none, false, { status := .idle }⟩],
            [⟨"all"⟩]⟩, RunnerState.mk 4 [] [] [] [] [] [] []⟩) =
      rerunFailed 3 4 ⟨.auto, .auto, 4⟩
        ⟨⟨[⟨⟨"id1", "m1", "/m1"⟩, [("all", true)],
            [("all", { status := RunStatus.failed })], none, false, { status := .idle }⟩],
          [⟨"all"⟩]⟩, RunnerState.mk 4 [] [] [] [] [] [] []⟩ :=
  ⟨c1_enqueue_idempotent.1 5 (RunnerState.mk 2 [] [("w:m:a:all", .task)] [] [] [] [] [])
      { module := ⟨"w:m:a", "a", "/w/m/a"⟩, target := "all" } (by decide),
   c1_enqueue_idempotent.2 9 3 4 ⟨.auto, .auto, 4⟩
      ⟨⟨[⟨⟨"id1", "m1", "/m1"⟩, [("all", true)],
          [("all", { status := RunStatus.failed })], none, false, { status := .idle }⟩],
        [⟨"all"⟩]⟩, RunnerState.mk 4 [] [] [] [] [] [] []⟩⟩

end ETM
